import Mathlib

/-!
# dockerdesk: the `platform` package

A shallow embedding of `platform/platform.go`, `platform/status.go`,
`platform/deploy.go` and `platform/config.go`, and theorems about the container
status mapping, the published-ports parser, the label merge, the port maps and
the lifecycle hooks.

Conventions of the embedding.

* Go strings are Lean strings; the parser works on their characters.  The
  separators it splits on (comma, colon, slash) are single ASCII bytes, so
  splitting the characters agrees with Go's byte-wise `strings.Split`.
* A Go `error` is a value of `Err`; a function returning `(T, error)` returns
  `Except Err T`, a function returning `error` returns `Option Err`.
* The Docker engine is a record of transition functions over an arbitrary
  engine state `σ`; every call a hook issues is appended to a call log, and
  every call to the progress sink is appended to a UI log.
* Library functions whose code is outside the repository (`time.Parse`,
  `json.Marshal`, `nat.NewPort`, ...) are fields of the record `Lib`.
-/

set_option autoImplicit false
set_option linter.dupNamespace false

namespace DockerDesk

/-! ## Strings -/

/-- Go `strings.Split(s, sep)` for a one-character separator, on the characters
of `s`: the pieces between the occurrences of `sep`.  The empty text gives one
empty piece. -/
def splitChars (sep : Char) : List Char → List (List Char)
  | [] => [[]]
  | c :: cs =>
    if c = sep then [] :: splitChars sep cs
    else
      match splitChars sep cs with
      | [] => [[c]]
      | h :: t => (c :: h) :: t

/-- Go `strings.Split(s, sep)` for a one-character separator. -/
def strSplit (s : String) (sep : Char) : List String :=
  (splitChars sep s.data).map String.mk

/-- Go `strings.TrimPrefix(s, "/")`. -/
def trimLeadingSlash (s : String) : String :=
  match s.data with
  | '/' :: t => String.mk t
  | _ => s

/-! ## Errors -/

/-- The gRPC codes the package uses with `status.Errorf`. -/
inductive Code
  | FailedPrecondition
  | Internal
  | InvalidArgument
  deriving DecidableEq, Repr

/-- Name of a gRPC code as `status.Errorf(...).Error()` prints it. -/
def Code.name : Code → String
  | .FailedPrecondition => "FailedPrecondition"
  | .Internal => "Internal"
  | .InvalidArgument => "InvalidArgument"

/-- A Go `error` value.  `notFound` is what `client.IsErrNotFound` answers on
it, `code` is set when it was built by `status.Errorf`, `msg` is its message. -/
structure Err where
  notFound : Bool
  code : Option Code
  msg : String
  deriving DecidableEq, Repr

/-- The text `err.Error()`, as `%s` and `%w` print it. -/
def Err.text (e : Err) : String :=
  match e.code with
  | some c => "rpc error: code = " ++ c.name ++ " desc = " ++ e.msg
  | none => e.msg

/-- Go `status.Errorf(code, ...)` with the formatted message `msg`. -/
def statusErrorf (c : Code) (msg : String) : Err :=
  { notFound := false, code := some c, msg := msg }

/-- Go `fmt.Errorf(...)` with the formatted message `msg`. -/
def fmtErrorf (msg : String) : Err :=
  { notFound := false, code := none, msg := msg }

/-! ## Published ports (`platform.go`, lines 579-648) -/

/-- Go `portField`. -/
structure portField where
  ContainerPort : String
  HostPort : String
  Proto : String
  deriving DecidableEq, Repr

/-- Go `(*portField).String`. -/
def portField.String (pf : portField) : String :=
  "ContainerPort=" ++ pf.ContainerPort ++ " HostPort=" ++ pf.HostPort ++ " Proto=" ++ pf.Proto

/-- Go `parseProtoField`: the pair `(port, proto)`, or an error. -/
def parseProtoField (v : String) : Except Err (String × String) :=
  match strSplit v '/' with
  | [p] => .ok (p, "tcp")
  | [p, q] => .ok (p, q)
  | _ => .error (fmtErrorf ("invalid format. " ++ v))

/-- Go `parsePublishPortField`. -/
def parsePublishPortField (portValue : String) : Except Err portField :=
  match strSplit portValue ':' with
  | [t0] =>
    match parseProtoField t0 with
    | .error e => .error e
    | .ok (containerPort, proto) => .ok ⟨containerPort, "", proto⟩
  | [t0, t1] =>
    match parseProtoField t1 with
    | .error e => .error e
    | .ok (hostPort, proto) => .ok ⟨t0, hostPort, proto⟩
  | _ => .error (fmtErrorf ("invalid port field " ++ portValue))

/-- The loop of `parsePublishPorts` over the tokens, `pfs` being the fields
appended so far. -/
def parsePublishPortsLoop : List String → List portField → Except Err (List portField)
  | [], pfs => .ok pfs
  | t :: ts, pfs =>
    match parsePublishPortField t with
    | .error e => .error e
    | .ok pf => parsePublishPortsLoop ts (pfs ++ [pf])

/-- Go `parsePublishPorts`. -/
def parsePublishPorts (portValueCSV : String) : Except Err (List portField) :=
  if portValueCSV.length = 0 then .ok []
  else parsePublishPortsLoop (strSplit portValueCSV ',') []

/-! ## Maps

A Go map is the list of its entries.  `GoMap.set` is `m[k] = v` and
`GoMap.get` is the lookup `m[k]`.  Go leaves the order of `range` over a map
unspecified; `Lib.mapRange` gives the order the runtime takes at each loop. -/

/-- Go `m[k] = v`: replace the value of an existing key, or add the entry. -/
def GoMap.set {β : Type} : List (String × β) → String → β → List (String × β)
  | [], k, v => [(k, v)]
  | (k0, v0) :: m, k, v =>
    if k0 = k then (k0, v) :: m else (k0, v0) :: GoMap.set m k v

/-- Go `v, ok := m[k]`. -/
def GoMap.get {β : Type} : List (String × β) → String → Option β
  | [], _ => none
  | (k0, v0) :: m, k => if k0 = k then some v0 else GoMap.get m k

/-! ## Status report records (`sdk.StatusReport`) -/

/-- Go `sdk.StatusReport_Health`; `UNKNOWN` is its zero value. -/
inductive Health
  | UNKNOWN
  | ALIVE
  | READY
  | DOWN
  | MISSING
  | PARTIAL
  deriving DecidableEq, Repr

/-- Go `sdk.ResourceCategoryDisplayHint`; `UNKNOWN` is its zero value. -/
inductive DisplayHint
  | UNKNOWN
  | ROUTER
  | INSTANCE
  deriving DecidableEq, Repr

/-- A point in time, as `time.Time` and `timestamppb.Timestamp` carry it. -/
abbrev Timestamp := Int

/-- Go `sdk.StatusReport_Resource`, with the fields the package sets. -/
structure StatusReport_Resource where
  Name : String := ""
  Id : String := ""
  CategoryDisplayHint : DisplayHint := .UNKNOWN
  Health : Health := .UNKNOWN
  HealthMessage : String := ""
  StateJson : String := ""
  CreatedTime : Option Timestamp := none
  deriving DecidableEq, Repr

/-- Go `resource.StatusResponse`: the records the status hooks append to. -/
structure StatusResponse where
  Resources : List StatusReport_Resource := []
  deriving DecidableEq, Repr

/-! ## Resource states (`docker.Resource_Network`, `docker.Resource_Container`) -/

/-- Go `docker.Resource_Network`. -/
structure Resource_Network where
  Name : String := ""
  deriving DecidableEq, Repr

/-- Go `docker.Resource_Container`. -/
structure Resource_Container where
  Id : String := ""
  Name : String := ""
  deriving DecidableEq, Repr

/-! ## What the engine returns -/

/-- Go `types.Health`: the status of the built-in health check. -/
structure HealthCheck where
  Status : String
  deriving DecidableEq, Repr

/-- Go `types.ContainerState`, with the fields the status hook reads;
`Health` is the pointer `State.Health`, `none` when nil. -/
structure ContainerState where
  Status : String
  Running : Bool
  Restarting : Bool
  OOMKilled : Bool
  Dead : Bool
  ExitCode : Int
  Health : Option HealthCheck
  deriving DecidableEq, Repr

/-- Go `container.Config` of an inspected container: the environment list, and
the fields the hook never reads as one uninterpreted value. -/
structure InspectConfig where
  Env : List String
  rest : String
  deriving DecidableEq, Repr

/-- Go `network.EndpointSettings` of an inspected container. -/
structure EndpointInfo where
  IPAddress : String
  deriving DecidableEq, Repr

/-- Go `types.NetworkSettings`: the map from network name to endpoint. -/
structure NetworkSettings where
  Networks : List (String × EndpointInfo)
  deriving DecidableEq, Repr

/-- Go `types.ContainerJSON`, the result of a successful `ContainerInspect`.
The pointers the hook dereferences without a check (`ContainerJSONBase`,
`State`, `Config`) are taken to be set, as the engine sets them; the pointers
it checks (`State.Health`, `NetworkSettings`) are options.  `rest` stands for
the fields the hook never reads, which still reach `json.Marshal`. -/
structure ContainerJSON where
  ID : String
  Name : String
  Created : String
  State : ContainerState
  Config : InspectConfig
  NetworkSettings : Option NetworkSettings
  rest : String
  deriving DecidableEq, Repr

/-- Go `types.NetworkResource`, an element of the result of `NetworkList`. -/
structure NetworkResource where
  Name : String
  ID : String
  Created : Timestamp
  rest : String
  deriving DecidableEq, Repr

/-- The value `containerState` that the container status hook marshals: the
key "dockerContainerInfo", and the key "ipAddress" when it was set. -/
structure ContainerStateDoc where
  dockerContainerInfo : ContainerJSON
  ipAddress : Option String
  deriving DecidableEq, Repr

/-! ## Configuration (`config.go`) and hook inputs -/

/-- Go `ClientConfig`. -/
structure ClientConfig where
  Host : String := ""
  CertPath : String := ""
  APIVersion : String := ""
  deriving DecidableEq, Repr

/-- Go `PlatformConfig`.  The slices and maps the code compares with nil are
options (`none` is nil); `ServicePort` and `ExtraPorts` are Go `uint`.
`UseAppAsContainerName` is read by `resourceContainerCreate` (line 325); its
declaration is not in `config.go`. -/
structure PlatformConfig where
  Binds : Option (List String) := none
  ClientConfig : Option ClientConfig := none
  Command : List String := []
  ForcePull : Bool := false
  Labels : Option (List (String × String)) := none
  Networks : Option (List String) := none
  Resources : Option (List (String × String)) := none
  ScratchSpace : String := ""
  StaticEnvVars : List (String × String) := []
  ExtraPorts : List Nat := []
  ServicePort : Nat := 0
  PublishedPorts : String := ""
  UseAppAsContainerName : Bool := false
  deriving DecidableEq, Repr

/-- Go `component.Source`: the application name. -/
structure Source where
  App : String
  deriving DecidableEq, Repr

/-- Go `component.JobInfo`: the workspace of the job. -/
structure JobInfo where
  Workspace : String
  deriving DecidableEq, Repr

/-- Go `docker.Image`. -/
structure Image where
  Image : String
  Tag : String
  deriving DecidableEq, Repr

/-- Go `component.DeploymentConfig`: the map its method `Env()` returns. -/
structure DeploymentConfig where
  Env : List (String × String)
  deriving DecidableEq, Repr

/-- A resource state as the resource manager stores and serializes it. -/
inductive StateValue
  | network (s : Resource_Network)
  | container (s : Resource_Container)
  deriving DecidableEq, Repr

/-- Go `docker.Deployment`.  `ResourceState` is `none` for a deployment made
before resource state was stored, else the snapshot: resource name to state. -/
structure Deployment where
  Id : String := ""
  Name : String := ""
  Container : String := ""
  ResourceState : Option (List (String × StateValue)) := none
  deriving DecidableEq, Repr

/-! ## Requests sent to the engine -/

/-- Go `types.NetworkCreate`, with the fields the package sets. -/
structure NetworkCreate where
  Driver : String
  CheckDuplicate : Bool
  Internal : Bool
  Attachable : Bool
  Labels : List (String × String)
  deriving DecidableEq, Repr

/-- Go `nat.PortBinding`. -/
structure PortBinding where
  HostIP : String := ""
  HostPort : String
  deriving DecidableEq, Repr

/-- Go `container.Config` as the create hook fills it.  `ExposedPorts` is the
key set of a `nat.PortSet`; `Cmd` is `none` when left nil. -/
structure ContainerConfig where
  AttachStdout : Bool
  AttachStderr : Bool
  AttachStdin : Bool
  OpenStdin : Bool
  StdinOnce : Bool
  Image : String
  ExposedPorts : List (String × Unit)
  Env : List String
  Cmd : Option (List String)
  Labels : List (String × String)
  deriving DecidableEq, Repr

/-- Go `container.Resources`, with the fields the package sets. -/
structure ContainerResources where
  Memory : Int := 0
  CPUShares : Int := 0
  deriving DecidableEq, Repr

/-- Go `container.HostConfig`, with the fields the package sets. -/
structure HostConfig where
  Binds : List String
  PortBindings : List (String × List PortBinding)
  Resources : ContainerResources
  deriving DecidableEq, Repr

/-- The arguments of `ContainerCreate`: config, host config, the endpoint
names of the networking config, and the container name. -/
structure ContainerCreateArgs where
  config : ContainerConfig
  hostConfig : HostConfig
  endpoints : List String
  name : String
  deriving DecidableEq, Repr

/-- An option given to `NewClientWithOpts`. -/
inductive ClientOpt
  | FromEnv
  | WithHost (host : String)
  | WithTLSClientConfig (ca cert key : String)
  | WithVersion (version : String)
  deriving DecidableEq, Repr

/-! ## Collaborators -/

/-- Library functions used by the package whose code is not in the repository. -/
structure Lib where
  /-- Go `time.Parse(time.RFC3339, s)`. -/
  timeParse : String → Except Err Timestamp
  /-- Go `json.Marshal` of the container status document. -/
  marshalContainer : ContainerStateDoc → Except Err String
  /-- Go `json.Marshal` of the map with the key "dockerNetwork". -/
  marshalNetwork : NetworkResource → Except Err String
  /-- The verb `%q` of `fmt`. -/
  quote : String → String
  /-- Go `nat.NewPort(proto, port)`. -/
  newPort : String → String → Except Err String
  /-- Go `goUnits.FromHumanSize`. -/
  fromHumanSize : String → Except Err Int
  /-- Go `strconv.ParseInt(s, 10, 64)`. -/
  parseInt : String → Except Err Int
  /-- Go `reference.ParseNormalizedNamed(s)` followed by `Name()`. -/
  parseNormalizedNamed : String → Except Err String
  /-- Go `ui.OutputWriters()`: the descriptor of stdout, 0 when it is no file. -/
  outputWriters : Except Err Nat
  /-- Go `jsonmessage.DisplayJSONMessagesStream` on the pull stream. -/
  displayJSONMessagesStream : String → Nat → Option Err
  /-- The order in which `range` visits a map, for each loop of the package. -/
  mapRange : Nat → List (String × String) → List (String × String)
  /-- Go `filepath.Join`. -/
  filepathJoin : String → String → String
  /-- Go `wpdockerclient.NewClientWithOpts`: whether the client can be made. -/
  newClientWithOpts : List ClientOpt → Option Err
  /-- The health message the resource manager gives the whole report. -/
  summaryMessage : List StatusReport_Resource → Health → String
  /-- Go `component.Id()`: a fresh deployment id. -/
  componentId : Except Err String

/-- The Docker engine behind `client.Client`: each operation maps the engine
state and the arguments to a result and the next engine state. -/
structure Client (σ : Type) where
  NegotiateAPIVersion : σ → σ
  NetworkList : σ → String → Except Err (List NetworkResource) × σ
  NetworkCreate : σ → String → NetworkCreate → Option Err × σ
  NetworkConnect : σ → String → String → Option Err × σ
  ImageList : σ → String → Except Err Nat × σ
  ImagePull : σ → String → Except Err String × σ
  ContainerCreate : σ → ContainerCreateArgs → Except Err String × σ
  ContainerStart : σ → String → Option Err × σ
  ContainerInspect : σ → String → Except Err ContainerJSON × σ
  ContainerRemove : σ → String → Bool → Option Err × σ

/-- A call issued to the engine. -/
inductive Call
  | NegotiateAPIVersion
  | NetworkList (labelFilter : String)
  | NetworkCreate (name : String) (opts : NetworkCreate)
  | NetworkConnect (net : String) (container : String)
  | ImageList (reference : String)
  | ImagePull (ref : String)
  | ContainerCreate (args : ContainerCreateArgs)
  | ContainerStart (id : String)
  | ContainerInspect (id : String)
  | ContainerRemove (id : String) (force : Bool)
  deriving DecidableEq, Repr

/-- Go `terminal.Status*` constants used by the package. -/
inductive TermStatus
  | StatusOK
  | StatusWarn
  | StatusError
  deriving DecidableEq, Repr

/-- A call to the progress sink (`terminal.UI`, its step groups, steps and
status line).  A step is named by the message it was added with. -/
inductive UiEvent
  | StepGroup
  | Wait
  | Add (step : String)
  | Update (step : String) (msg : String)
  | Status (step : String) (st : TermStatus)
  | TermOutput (step : String)
  | Done (step : String)
  | Abort (step : String)
  | OutputWriters
  | StatusLine
  | StatusUpdate (msg : String)
  | StatusStep (st : TermStatus) (msg : String)
  | StatusClose
  deriving DecidableEq, Repr

/-- The world a hook runs in: the engine state, the engine calls issued so
far and the progress-sink calls issued so far. -/
structure World (σ : Type) where
  eng : σ
  calls : List Call
  ui : List UiEvent

/-- Record one call to the progress sink. -/
def World.emit {σ : Type} (w : World σ) (e : UiEvent) : World σ :=
  { w with ui := w.ui ++ [e] }

/-- Run one engine operation and record the call. -/
def World.call {σ α : Type} (w : World σ) (c : Call) (op : σ → α × σ) : α × World σ :=
  let r := op w.eng
  (r.1, { w with eng := r.2, calls := w.calls ++ [c] })

/-! ## The network resource (`platform.go`, lines 99-187) -/

/-- Go `resourceNetworkCreate`.  Returns the error, the network state after
the call, and the world after the call. -/
def resourceNetworkCreate {σ : Type} (cli : Client σ) (state : Resource_Network)
    (w : World σ) : Option Err × Resource_Network × World σ :=
  let step := "Setting up network..."
  let w := w.emit (.Add step)
  let (nets, w) := w.call (.NetworkList "use=waypoint") (fun e => cli.NetworkList e "use=waypoint")
  match nets with
  | .error err =>
    (some (statusErrorf .FailedPrecondition ("unable to list Docker networks: " ++ err.text)),
      state, w.emit (.Abort step))
  | .ok nets =>
    let opts : NetworkCreate :=
      { Driver := "bridge", CheckDuplicate := true, Internal := false, Attachable := true,
        Labels := [("use", "waypoint")] }
    let (created, w) :=
      if nets.length = 0 then
        w.call (.NetworkCreate "waypoint" opts) (fun e => cli.NetworkCreate e "waypoint" opts)
      else (none, w)
    match created with
    | some err =>
      (some (statusErrorf .FailedPrecondition ("unable to create Docker network: " ++ err.text)),
        state, w.emit (.Abort step))
    | none =>
      let w := w.emit (.Done step)
      let state := { state with Name := "waypoint" }
      (none, state, w.emit (.Abort step))

/-- The loop of `resourceNetworkStatus` over the listed networks: one record
per network, stopping at the first network that cannot be marshalled. -/
def networkStatusLoop (lib : Lib) :
    List NetworkResource → List StatusReport_Resource → Option Err × List StatusReport_Resource
  | [], rs => (none, rs)
  | net :: nets, rs =>
    match lib.marshalNetwork net with
    | .error err =>
      (some (statusErrorf .FailedPrecondition
        ("failed to marshal docker network status for network with id " ++ lib.quote net.ID
          ++ ": " ++ err.text)), rs)
    | .ok netJson =>
      networkStatusLoop lib nets (rs ++ [{
        Name := net.Name, Id := net.ID, CategoryDisplayHint := .ROUTER, Health := .READY,
        HealthMessage := "exists", StateJson := netJson, CreatedTime := some net.Created }])

/-- Go `resourceNetworkStatus`.  Returns the error, the status response, the
network state and the world after the call. -/
def resourceNetworkStatus {σ : Type} (lib : Lib) (cli : Client σ) (network : Resource_Network)
    (sr : StatusResponse) (w : World σ) :
    Option Err × StatusResponse × Resource_Network × World σ :=
  let step := "Checking status of the Docker network resource..."
  let w := w.emit (.Add step)
  let filter := "use=" ++ network.Name
  let (nets, w) := w.call (.NetworkList filter) (fun e => cli.NetworkList e filter)
  match nets with
  | .error err =>
    (some (statusErrorf .FailedPrecondition ("unable to list Docker networks: " ++ err.text)),
      sr, network, w.emit (.Abort step))
  | .ok nets =>
    let (err, rs) :=
      if nets.length = 0 then
        (none, sr.Resources ++ [{
          Name := network.Name, CategoryDisplayHint := .ROUTER, Health := .MISSING }])
      else networkStatusLoop lib nets sr.Resources
    match err with
    | some e => (some e, { sr with Resources := rs }, network, w.emit (.Abort step))
    | none =>
      let w := w.emit (.Update step "Finished building report for Docker network resource")
      let w := w.emit (.Done step)
      (none, { sr with Resources := rs }, network, w.emit (.Abort step))

/-! ## The container resource: destroy and status (`platform.go`, lines 436-577) -/

/-- Go `resourceContainerDestroy`.  Returns the error, the container state and
the world after the call. -/
def resourceContainerDestroy {σ : Type} (cli : Client σ) (state : Resource_Container)
    (w : World σ) : Option Err × Resource_Container × World σ :=
  let (info, w) := w.call (.ContainerInspect state.Id) (fun e => cli.ContainerInspect e state.Id)
  let isNotFound : Bool :=
    match info with
    | .error err => err.notFound
    | .ok _ => false
  if isNotFound then (none, state, w)
  else
    let step := "Deleting container: " ++ state.Id
    let w := w.emit (.Add step)
    let (removed, w) :=
      w.call (.ContainerRemove state.Id true) (fun e => cli.ContainerRemove e state.Id true)
    match removed with
    | some err => (some err, state, w.emit (.Abort step))
    | none =>
      let w := w.emit (.Done step)
      (none, state, w.emit (.Abort step))

/-- The health decision of `resourceContainerStatus` (lines 516-549): the
health and the health message set on the container record. -/
def containerHealth (st : ContainerState) : Health × String :=
  match st.Health with
  | some h =>
    if h.Status = "Healthy" then (.READY, "container is running")
    else if h.Status = "Unhealthy" then (.DOWN, "container is down")
    else if h.Status = "Starting" then (.ALIVE, "container is starting")
    else (.UNKNOWN, "unknown status reported by docker for container")
  | none =>
    if st.Running && st.ExitCode == 0 then (.READY, "container is running")
    else if st.Restarting || st.Status == "created" then (.ALIVE, "container is still starting")
    else if st.Dead || st.OOMKilled || st.ExitCode != 0 then (.DOWN, "container is down")
    else (.UNKNOWN, "unknown status for container")

/-- The document `resourceContainerStatus` marshals (lines 551-565): the
inspect result with the environment list emptied, and the address of the
network when the container has exactly one. -/
def containerStateDoc (containerInfo : ContainerJSON) : ContainerStateDoc :=
  let containerInfo := { containerInfo with Config := { containerInfo.Config with Env := [] } }
  let ip : Option String :=
    match containerInfo.NetworkSettings with
    | some ns =>
      match ns.Networks with
      | [(_, dockerNetwork)] => some dockerNetwork.IPAddress
      | _ => none
    | none => none
  { dockerContainerInfo := containerInfo, ipAddress := ip }

/-- Go `resourceContainerStatus`.  The record `containerResource` is appended
to the response first and filled in afterwards through its pointer, so the
response returned with an error holds the record as far as it was filled.
Returns the error, the status response, the container state and the world. -/
def resourceContainerStatus {σ : Type} (lib : Lib) (cli : Client σ)
    (container : Resource_Container) (sr : StatusResponse) (w : World σ) :
    Option Err × StatusResponse × Resource_Container × World σ :=
  let step := "Checking status of the Docker container resource..."
  let w := w.emit (.Add step)
  let containerResource : StatusReport_Resource := { CategoryDisplayHint := .INSTANCE }
  let out := fun (r : StatusReport_Resource) => { sr with Resources := sr.Resources ++ [r] }
  let finish := fun (r : StatusReport_Resource) (w : World σ) =>
    let w := w.emit (.Update step "Finished building report for Docker container resource")
    let w := w.emit (.Done step)
    ((none : Option Err), out r, container, w.emit (.Abort step))
  let (inspected, w) :=
    w.call (.ContainerInspect container.Id) (fun e => cli.ContainerInspect e container.Id)
  match inspected with
  | .error err =>
    if err.notFound then
      finish { containerResource with
        Name := container.Name, Id := container.Id, Health := .MISSING } w
    else
      (some (statusErrorf .FailedPrecondition
        ("error quering docker for container status: " ++ err.text)),
        out containerResource, container, w.emit (.Abort step))
  | .ok containerInfo =>
    let containerResource := { containerResource with
      Id := containerInfo.ID, Name := trimLeadingSlash containerInfo.Name }
    match lib.timeParse containerInfo.Created with
    | .error err =>
      (some (statusErrorf .Internal ("failed to parse docker timestamp "
        ++ lib.quote containerInfo.Created ++ ": " ++ err.text)),
        out containerResource, container, w.emit (.Abort step))
    | .ok containerCreatedTime =>
      let containerResource := { containerResource with CreatedTime := some containerCreatedTime }
      let hm := containerHealth containerInfo.State
      let containerResource := { containerResource with Health := hm.1, HealthMessage := hm.2 }
      match lib.marshalContainer (containerStateDoc containerInfo) with
      | .error err =>
        (some (statusErrorf .Internal
          ("failed to marshal container info to json: " ++ err.text)),
          out containerResource, container, w.emit (.Abort step))
      | .ok stateJson =>
        finish { containerResource with StateJson := stateJson } w

/-! ## The container resource: create (`platform.go`, lines 189-434) -/

/-- The label key `labelId`. -/
def labelId : String := "waypoint.hashicorp.com/id"

/-- Go `pullImage`.  Returns the error and the world after the call. -/
def pullImage {σ : Type} (lib : Lib) (cli : Client σ) (img : Image) (force : Bool)
    (w : World σ) : Option Err × World σ :=
  let ref := img.Image ++ ":" ++ img.Tag
  let step := ""
  let w := w.emit .StepGroup
  let w := w.emit (.Add step)
  let pull := fun (w : World σ) =>
    let w := w.emit (.Update step ("Pulling Docker Image " ++ ref))
    match lib.parseNormalizedNamed ref with
    | .error _ =>
      (some (statusErrorf .InvalidArgument ("unable to parse image name: " ++ ref)),
        w.emit (.Abort step))
    | .ok name =>
      let (out, w) := w.call (.ImagePull name) (fun e => cli.ImagePull e name)
      match out with
      | .error err =>
        (some (fmtErrorf ("unable to pull image: " ++ err.text)), w.emit (.Abort step))
      | .ok out =>
        let w := w.emit .OutputWriters
        match lib.outputWriters with
        | .error err =>
          (some (fmtErrorf ("unable to get output writers: " ++ err.text)), w.emit (.Abort step))
        | .ok termFd =>
          let w := w.emit (.TermOutput step)
          match lib.displayJSONMessagesStream out termFd with
          | some err =>
            (some (statusErrorf .Internal
              ("unable to stream build logs to the terminal: " ++ err.text)),
              w.emit (.Abort step))
          | none =>
            let w := w.emit (.Done step)
            ((none : Option Err), w.emit (.Abort step))
  if force = false then
    let w := w.emit (.Update step ("Checking Docker image cache for Image " ++ ref))
    let (sum, w) := w.call (.ImageList ref) (fun e => cli.ImageList e ref)
    match sum with
    | .error err =>
      (some (fmtErrorf ("unable to list images in local Docker cache: " ++ err.text)),
        w.emit (.Abort step))
    | .ok n =>
      if n > 0 then
        let w := w.emit (.Update step ("Docker image " ++ lib.quote ref ++ " up to date!"))
        let w := w.emit (.Done step)
        (none, w.emit (.Abort step))
      else pull w
  else pull w

/-- The loop of `resourceContainerCreate` over the published ports (lines
220-232): the exposed ports and the port bindings after it, or the error. -/
def publishLoop (lib : Lib) : List portField → List (String × Unit) →
    List (String × List PortBinding) →
    Except Err (List (String × Unit) × List (String × List PortBinding))
  | [], exposedPorts, portBindings => .ok (exposedPorts, portBindings)
  | pf :: pfs, exposedPorts, portBindings =>
    match lib.newPort pf.Proto pf.ContainerPort with
    | .error err =>
      .error (fmtErrorf ("createPort from " ++ pf.String ++ " err = " ++ err.text))
    | .ok np =>
      publishLoop lib pfs (GoMap.set exposedPorts np ())
        (GoMap.set portBindings np [{ HostPort := pf.HostPort }])

/-- The loop of `resourceContainerCreate` over the extra ports and the
service port (lines 234-246). -/
def servicePortLoop (lib : Lib) : List Nat → List (String × Unit) →
    List (String × List PortBinding) →
    Except Err (List (String × Unit) × List (String × List PortBinding))
  | [], exposedPorts, portBindings => .ok (exposedPorts, portBindings)
  | port :: ports, exposedPorts, portBindings =>
    match lib.newPort "tcp" (toString port) with
    | .error err => .error err
    | .ok np =>
      servicePortLoop lib ports (GoMap.set exposedPorts np ())
        (GoMap.set portBindings np [{ HostPort := "" }])

/-- The resource requirements of `resourceContainerCreate` (lines 268-282). -/
def containerResources (lib : Lib) (p : PlatformConfig) : Except Err ContainerResources :=
  match p.Resources with
  | none => .ok {}
  | some res =>
    match lib.fromHumanSize ((GoMap.get res "memory").getD "") with
    | .error err => .error err
    | .ok memory =>
      match lib.parseInt ((GoMap.get res "cpu").getD "") with
      | .error err => .error err
      | .ok cpu => .ok { Memory := memory, CPUShares := cpu }

/-- The loop `for k, v := range defaultLabels` writing into the user labels
(lines 315-317), `visit` being the entries in the order the loop takes them. -/
def writeLabels (labels : List (String × String)) (visit : List (String × String)) :
    List (String × String) :=
  visit.foldl (fun m kv => GoMap.set m kv.1 kv.2) labels

/-- The label merge of `resourceContainerCreate` (lines 307-320): the value of
`p.config.Labels` after it. -/
def mergeLabels (lib : Lib) (p : PlatformConfig) (src : Source) (job : JobInfo)
    (result : Deployment) : List (String × String) :=
  let defaultLabels := [(labelId, result.Id), ("app", src.App), ("workspace", job.Workspace)]
  match p.Labels with
  | some labels => writeLabels labels (lib.mapRange 2 defaultLabels)
  | none => defaultLabels

/-- The loop of `resourceContainerCreate` connecting the additional networks
(lines 340-351): the first failure, and the world after the loop. -/
def connectLoop {σ : Type} (cli : Client σ) (id : String) :
    List String → World σ → Option Err × World σ
  | [], w => (none, w)
  | net :: nets, w =>
    let (err, w) := w.call (.NetworkConnect net id) (fun e => cli.NetworkConnect e net id)
    match err with
    | some err => (some err, w)
    | none => connectLoop cli id nets w

/-- The part of `resourceContainerCreate` that builds the arguments of
`ContainerCreate` (lines 213-327): the port maps, the container config, the
binds, the resources, the environment, the labels and the name.  Returns the
platform configuration, whose labels this part overwrites, and the arguments;
or the error it stops with, in which case the configuration is untouched. -/
def buildCreateArgs (lib : Lib) (p : PlatformConfig) (src : Source) (img : Image)
    (job : JobInfo) (deployConfig : DeploymentConfig) (result : Deployment)
    (netState : Resource_Network) : Except Err (PlatformConfig × ContainerCreateArgs) :=
  match parsePublishPorts p.PublishedPorts with
  | .error err =>
    .error (fmtErrorf ("parsePublishedPort " ++ p.PublishedPorts ++ " " ++ err.text))
  | .ok pfs =>
  match publishLoop lib pfs [] [] with
  | .error err => .error err
  | .ok (exposedPorts, portBindings) =>
  match servicePortLoop lib (p.ExtraPorts ++ [p.ServicePort]) exposedPorts portBindings with
  | .error err => .error err
  | .ok (exposedPorts, portBindings) =>
  let containerBinds := [src.App ++ "-scratch" ++ ":/input"] ++ p.Binds.getD []
  match containerResources lib p with
  | .error err => .error err
  | .ok resources =>
  let hostconfig : HostConfig :=
    { Binds := containerBinds, PortBindings := portBindings, Resources := resources }
  let env := ["PORT=" ++ toString p.ServicePort]
    ++ (lib.mapRange 0 p.StaticEnvVars).map (fun kv => kv.1 ++ "=" ++ kv.2)
    ++ (lib.mapRange 1 deployConfig.Env).map (fun kv => kv.1 ++ "=" ++ kv.2)
  let labels := mergeLabels lib p src job result
  let cfg : ContainerConfig :=
    { AttachStdout := true, AttachStderr := true, AttachStdin := true, OpenStdin := true,
      StdinOnce := true, Image := img.Image ++ ":" ++ img.Tag, ExposedPorts := exposedPorts,
      Env := env, Cmd := if p.Command.length > 0 then some p.Command else none,
      Labels := labels }
  let name := if p.UseAppAsContainerName then src.App else src.App ++ "-" ++ result.Id
  .ok ({ p with Labels := some labels },
    { config := cfg, hostConfig := hostconfig, endpoints := [netState.Name], name := name })

/-- The part of `resourceContainerCreate` after the state is stored (lines
337-361): connect the additional networks and start the container `id`. -/
def connectAndStart {σ : Type} (cli : Client σ) (p : PlatformConfig) (step : String)
    (id : String) (w : World σ) : Option Err × World σ :=
  let (connected, w) :=
    match p.Networks with
    | some nets =>
      connectLoop cli id nets
        (w.emit (.Update step "Connecting additional networks to container..."))
    | none => (none, w)
  match connected with
  | some err =>
    let w := w.emit (.Update step "Failed to connect additional network")
    let w := w.emit (.Status step .StatusError)
    let w := w.emit (.Done step)
    (some (statusErrorf .Internal
      ("unable to connect container to additional networks: " ++ err.text)), w)
  | none =>
    let w := w.emit (.Update step "Starting container")
    let (started, w) := w.call (.ContainerStart id) (fun e => cli.ContainerStart e id)
    match started with
    | some err =>
      (some (statusErrorf .Internal ("unable to start Docker container: " ++ err.text)), w)
    | none => (none, w.emit (.Done step))

/-- Go `resourceContainerCreate`.  Returns the error, the platform
configuration (whose labels the hook overwrites), the container state and the
world after the call. -/
def resourceContainerCreate {σ : Type} (lib : Lib) (cli : Client σ) (p : PlatformConfig)
    (src : Source) (img : Image) (job : JobInfo) (deployConfig : DeploymentConfig)
    (result : Deployment) (state : Resource_Container) (netState : Resource_Network)
    (w : World σ) : Option Err × PlatformConfig × Resource_Container × World σ :=
  match pullImage lib cli img p.ForcePull w with
  | (some err, w) =>
    (some (statusErrorf .FailedPrecondition
      ("unable to pull image from Docker registry: " ++ err.text)), p, state, w)
  | (none, w) =>
    let step := "Creating new container..."
    let w := w.emit (.Add step)
    match buildCreateArgs lib p src img job deployConfig result netState with
    | .error err => (some err, p, state, w.emit (.Abort step))
    | .ok (p, args) =>
      let (cr, w) := w.call (.ContainerCreate args) (fun e => cli.ContainerCreate e args)
      match cr with
      | .error err =>
        (some (statusErrorf .Internal ("unable to create Docker container: " ++ err.text)),
          p, state, w.emit (.Abort step))
      | .ok id =>
        let state := { state with Id := id, Name := args.name }
        let (err, w) := connectAndStart cli p step id w
        (err, p, state, w.emit (.Abort step))

/-! ## The resource manager

The resource manager is the SDK type `resource.Manager`; its code is not in
the repository.  `resourceManager` (lines 39-67) registers the resource
"network" and then the resource "container". -/

/-- The manager built by `resourceManager`: the states of its two resources,
empty at construction. -/
structure Manager where
  network : Resource_Network := {}
  container : Resource_Container := {}
  deriving DecidableEq, Repr

/-- Go `sdk.StatusReport`, with the fields the claims speak about. -/
structure StatusReport where
  Resources : List StatusReport_Resource
  Health : Health
  HealthMessage : String
  deriving DecidableEq, Repr

/-- Modelled from the spec: `Resource(name).SetState(value)` of the SDK
manager, "type-checked assignment ...; fails if the value's shape does not
match the Resource's declared state type". -/
def Manager.SetState (rm : Manager) (name : String) (v : StateValue) : Except Err Manager :=
  match v with
  | .network s =>
    if name = "network" then .ok { rm with network := s }
    else .error (fmtErrorf ("state type mismatch for resource " ++ name))
  | .container s =>
    if name = "container" then .ok { rm with container := s }
    else .error (fmtErrorf ("state type mismatch for resource " ++ name))

/-- Modelled from the spec: `LoadState(snapshot)` of the SDK manager, "for
every resource name present in the snapshot, decode into that Resource's
declared type and call SetState; fails if a name in the snapshot has no
corresponding registered Resource". -/
def Manager.LoadState (rm : Manager) : List (String × StateValue) → Except Err Manager
  | [] => .ok rm
  | (name, v) :: rest =>
    match rm.SetState name v with
    | .error err => .error err
    | .ok rm => Manager.LoadState rm rest

/-- Modelled from the spec: `State()` of the SDK manager, "serializes every
registered Resource's State" into the mapping from resource name to state. -/
def Manager.State (rm : Manager) : List (String × StateValue) :=
  [("network", .network rm.network), ("container", .container rm.container)]

/-- Modelled from the spec: the aggregate health of the SDK manager's
`StatusReport`, "if every per-resource Health is READY → aggregate READY; if
every reported value is identical but not READY → aggregate equals that value;
if values differ across resources → aggregate PARTIAL". -/
def aggregateHealth (rs : List StatusReport_Resource) : Health :=
  match rs with
  | [] => .READY
  | r :: rest => if rest.all (fun x => x.Health = r.Health) then r.Health else .PARTIAL

/-- Modelled from the spec: `StatusReport` of the SDK manager, which "invokes
every Resource's Status hook in registration order, producing one ordered
report, then computes the aggregate Health"; "a resource whose Status hook
errors aborts the whole report".  The hooks append to one shared response. -/
def Manager.StatusReport {σ : Type} (lib : Lib) (cli : Client σ) (rm : Manager)
    (w : World σ) : Except Err StatusReport × Manager × World σ :=
  match resourceNetworkStatus lib cli rm.network {} w with
  | (some err, _, network, w) => (.error err, { rm with network := network }, w)
  | (none, sr, network, w) =>
    let rm := { rm with network := network }
    match resourceContainerStatus lib cli rm.container sr w with
    | (some err, _, container, w) => (.error err, { rm with container := container }, w)
    | (none, sr, container, w) =>
      let h := aggregateHealth sr.Resources
      (.ok { Resources := sr.Resources, Health := h,
             HealthMessage := lib.summaryMessage sr.Resources h },
        { rm with container := container }, w)

/-! ## Status (`status.go`) and the Docker client (`platform.go`, lines 69-97) -/

/-- The text `mixedHealthWarn`. -/
def mixedHealthWarn : String :=
  "Waypoint detected that the current deployment is not ready, however your application\n" ++
  "might be available or still starting up."

/-- Go `getDockerClient`: the error of making the client, and the world after
the call; the client made is the `cli` the hooks are given. -/
def getDockerClient {σ : Type} (lib : Lib) (cli : Client σ) (p : PlatformConfig)
    (w : World σ) : Option Err × World σ :=
  match p.ClientConfig with
  | none => (lib.newClientWithOpts [.FromEnv], w)
  | some cc =>
    let opts : List ClientOpt := []
    let opts := if cc.Host ≠ "" then opts ++ [.WithHost cc.Host] else opts
    let opts :=
      if cc.CertPath ≠ "" then
        opts ++ [.WithTLSClientConfig (lib.filepathJoin cc.CertPath "ca.pem")
          (lib.filepathJoin cc.CertPath "cert.pem") (lib.filepathJoin cc.CertPath "key.pem")]
      else opts
    let opts := if cc.APIVersion ≠ "" then opts ++ [.WithVersion cc.APIVersion] else opts
    match lib.newClientWithOpts opts with
    | some err => (some err, w)
    | none => (none, (w.call .NegotiateAPIVersion (fun e => ((), cli.NegotiateAPIVersion e))).2)

/-- The state restore of `Status` (lines 41-59): for a deployment without
resource state, set the container state from the deployment's container id
and the network state to the name "waypoint"; else load the stored state. -/
def restoreState (rm : Manager) (deployment : Deployment) : Except Err Manager :=
  match deployment.ResourceState with
  | none =>
    match rm.SetState "container" (.container { Id := deployment.Container }) with
    | .error err =>
      .error (statusErrorf .Internal ("failed to manually set container resource state while "
        ++ "restoring from an old deployment: " ++ err.text))
    | .ok rm =>
      match rm.SetState "network" (.network { Name := "waypoint" }) with
      | .error err =>
        .error (statusErrorf .Internal ("failed to manually set network resource state while "
          ++ "restoring from an old deployment: " ++ err.text))
      | .ok rm => .ok rm
  | some snapshot =>
    match rm.LoadState snapshot with
    | .error err =>
      .error (statusErrorf .Internal ("resource manager failed to load state: " ++ err.text))
    | .ok rm => .ok rm

/-- Go `Status`.  Returns the report or the error, the resource manager as it
was when the call ended, and the world after the call. -/
def Status {σ : Type} (lib : Lib) (cli : Client σ) (p : PlatformConfig)
    (deployment : Deployment) (w : World σ) : Except Err StatusReport × Manager × World σ :=
  match getDockerClient lib cli p w with
  | (some err, w) =>
    (.error (statusErrorf .FailedPrecondition ("unable to create Docker client: " ++ err.text)),
      {}, w)
  | (none, w) =>
    let w := (w.call .NegotiateAPIVersion (fun e => ((), cli.NegotiateAPIVersion e))).2
    let w := w.emit .StepGroup
    let step := "Gathering health report for Docker platform..."
    let w := w.emit (.Add step)
    let rm : Manager := {}
    match restoreState rm deployment with
    | .error err => (.error err, rm, (w.emit (.Abort step)).emit .Wait)
    | .ok rm =>
      match rm.StatusReport lib cli w with
      | (.error err, rm, w) =>
        (.error (statusErrorf .Internal
          ("resource manager failed to generate resource statuses: " ++ err.text)),
          rm, (w.emit (.Abort step)).emit .Wait)
      | (.ok result, rm, w) =>
        let w := w.emit (.Update step "Finished building report for Docker platform")
        let w := w.emit (.Done step)
        let w := w.emit .StatusLine
        let w := w.emit (.StatusUpdate "Determining overall container health...")
        let w :=
          if result.Health = .READY then w.emit (.StatusStep .StatusOK result.HealthMessage)
          else
            let w :=
              if result.Health = .PARTIAL then
                w.emit (.StatusStep .StatusWarn result.HealthMessage)
              else w.emit (.StatusStep .StatusError result.HealthMessage)
            w.emit (.StatusStep .StatusWarn mixedHealthWarn)
        (.ok result, rm, ((w.emit .StatusClose).emit (.Abort step)).emit .Wait)

/-! ## Deploy (`deploy.go`) -/

/-- Modelled from the spec: `CreateAll` of the SDK manager, which "iterates
registered Resources in registration order, invoking each Create hook with the
resource's own State plus any Resources already created earlier in the order",
and "stops at the first failing Create and returns that error" without
destroying what was created.  The client the hooks need comes from the value
provider `getDockerClient` that `resourceManager` registers; it is asked once,
before the hooks. -/
def Manager.CreateAll {σ : Type} (lib : Lib) (cli : Client σ) (p : PlatformConfig)
    (src : Source) (job : JobInfo) (img : Image) (deployConfig : DeploymentConfig)
    (result : Deployment) (rm : Manager) (w : World σ) :
    Option Err × PlatformConfig × Manager × World σ :=
  match getDockerClient lib cli p w with
  | (some err, w) => (some err, p, rm, w)
  | (none, w) =>
    match resourceNetworkCreate cli rm.network w with
    | (some err, network, w) => (some err, p, { rm with network := network }, w)
    | (none, network, w) =>
      let rm := { rm with network := network }
      match resourceContainerCreate lib cli p src img job deployConfig result rm.container
          rm.network w with
      | (err, p, container, w) => (err, p, { rm with container := container }, w)

/-- Go `Deploy`.  Returns the deployment or the error, the platform
configuration after the call (the service port default and the labels are
written into it), the resource manager and the world after the call.  The
container state of the manager is never nil, so the check of lines 94-97 does
not fire. -/
def Deploy {σ : Type} (lib : Lib) (cli : Client σ) (p : PlatformConfig) (src : Source)
    (job : JobInfo) (img : Image) (deployConfig : DeploymentConfig) (w : World σ) :
    Except Err Deployment × PlatformConfig × Manager × World σ :=
  let w := w.emit .StepGroup
  let p := if p.ServicePort = 0 then { p with ServicePort := 3000 } else p
  match lib.componentId with
  | .error err => (.error err, p, {}, w.emit .Wait)
  | .ok id =>
    let result : Deployment := { Id := id, Name := src.App }
    let rm : Manager := {}
    match rm.CreateAll lib cli p src job img deployConfig result w with
    | (some err, p, rm, w) => (.error err, p, rm, w.emit .Wait)
    | (none, p, rm, w) =>
      let result := { result with ResourceState := some rm.State }
      let crState := rm.container
      let step := "App deployed as container: " ++ crState.Name
      let w := w.emit (.Add step)
      let w := w.emit (.Done step)
      let result := { result with Container := crState.Id }
      (.ok result, p, rm, w.emit .Wait)

/-! ## Sample collaborators

Concrete library functions, engines and inputs, used to run the hooks. -/

/-- Library functions that always succeed, except `timeParse` on the empty
text. -/
def sampleLib : Lib where
  timeParse := fun s => if s = "" then .error (fmtErrorf "cannot parse") else .ok 0
  marshalContainer := fun doc =>
    .ok ("id=" ++ doc.dockerContainerInfo.ID ++ " env="
      ++ String.join doc.dockerContainerInfo.Config.Env)
  marshalNetwork := fun net => .ok ("net=" ++ net.ID)
  quote := fun s => "\"" ++ s ++ "\""
  newPort := fun proto port => .ok (port ++ "/" ++ proto)
  fromHumanSize := fun _ => .ok 0
  parseInt := fun _ => .ok 0
  parseNormalizedNamed := fun s => .ok s
  outputWriters := .ok 0
  displayJSONMessagesStream := fun _ _ => none
  mapRange := fun _ m => m
  filepathJoin := fun a b => a ++ "/" ++ b
  newClientWithOpts := fun _ => none
  summaryMessage := fun _ _ => ""
  componentId := .ok "d1"

/-- An engine without state that lists the networks `nets`, answers every
inspection with `inspect` and every start with `start`, has the image in its
cache, and creates the container "c1". -/
def scriptedClient (nets : List NetworkResource) (inspect : Except Err ContainerJSON)
    (start : Option Err) : Client Unit where
  NegotiateAPIVersion := fun e => e
  NetworkList := fun e _ => (.ok nets, e)
  NetworkCreate := fun e _ _ => (none, e)
  NetworkConnect := fun e _ _ => (none, e)
  ImageList := fun e _ => (.ok 1, e)
  ImagePull := fun e _ => (.ok "", e)
  ContainerCreate := fun e _ => (.ok "c1", e)
  ContainerStart := fun e _ => (start, e)
  ContainerInspect := fun e _ => (inspect, e)
  ContainerRemove := fun e _ _ => (none, e)

/-- The world before any call. -/
def emptyWorld : World Unit := { eng := (), calls := [], ui := [] }

/-- The error the engine gives for a container it does not know. -/
def notFoundErr : Err := { notFound := true, code := none, msg := "No such container: c1" }

/-- A running container without a health check, with one secret in its
environment. -/
def runningInfo : ContainerJSON where
  ID := "c1"
  Name := "/app-d1"
  Created := "2021-06-01T10:00:00Z"
  State := { Status := "running", Running := true, Restarting := false, OOMKilled := false,
             Dead := false, ExitCode := 0, Health := none }
  Config := { Env := ["TOKEN=secret"], rest := "" }
  NetworkSettings := some { Networks := [("waypoint", { IPAddress := "172.18.0.2" })] }
  rest := ""

/-- The container of `runningInfo` with a health check in state "Unhealthy". -/
def unhealthyInfo : ContainerJSON :=
  { runningInfo with State := { runningInfo.State with Health := some { Status := "Unhealthy" } } }

/-- The recorded state of the sample container. -/
def sampleContainer : Resource_Container := { Id := "c1", Name := "app-d1" }


/-! ## The published-ports format, as the specification words it

"Comma-separated entries, each `containerPort[:hostPort][/proto]`"; the
protocol "defaults to tcp when omitted". -/

/-- An entry of the published-ports format: a container port, an optional
host port and an optional protocol. -/
structure PublishedEntry where
  containerPort : String
  hostPort : Option String
  proto : Option String
  deriving DecidableEq, Repr

/-- The optional part `/proto` of an entry. -/
def protoSuffix : Option String → List Char
  | some q => '/' :: q.data
  | none => []

/-- The optional part `:hostPort` of an entry. -/
def hostSuffix : Option String → List Char
  | some h => ':' :: h.data
  | none => []

/-- The text `containerPort[:hostPort][/proto]` of an entry. -/
def PublishedEntry.render (e : PublishedEntry) : List Char :=
  e.containerPort.data ++ (hostSuffix e.hostPort ++ protoSuffix e.proto)

/-- The texts joined with a comma between neighbours. -/
def joinComma : List (List Char) → List Char
  | [] => []
  | [x] => x
  | x :: y :: ys => x ++ ',' :: joinComma (y :: ys)

/-- The published-ports text of a list of entries. -/
def renderPublishedPorts (es : List PublishedEntry) : String :=
  String.mk (joinComma (es.map PublishedEntry.render))

/-- The port field an entry stands for: host port "" when omitted, protocol
"tcp" when omitted. -/
def PublishedEntry.field (e : PublishedEntry) : portField :=
  ⟨e.containerPort, e.hostPort.getD "", e.proto.getD "tcp"⟩

/-- A text without comma, colon and slash. -/
def plainText (s : String) : Prop :=
  ',' ∉ s.data ∧ ':' ∉ s.data ∧ '/' ∉ s.data

/-- An entry whose texts contain no comma, colon or slash. -/
def PublishedEntry.plain (e : PublishedEntry) : Prop :=
  plainText e.containerPort ∧ (∀ h, e.hostPort = some h → plainText h) ∧
    (∀ q, e.proto = some q → plainText q)

/-- The port/proto segment of an entry: its last colon-separated part. -/
def portProtoSegment (entry : String) : String :=
  (strSplit entry ':').getLastD ""

/-- An entry the specification calls malformed: more than one colon, or more
than one slash in the port/proto segment. -/
def malformedEntry (entry : String) : Prop :=
  2 ≤ entry.data.count ':' ∨ 2 ≤ (portProtoSegment entry).data.count '/'

/-- A configuration whose user labels set the reserved key "app" and the
key "team". -/
def labelledConfig : PlatformConfig :=
  { Labels := some [("app", "mine"), ("team", "blue")], ServicePort := 3000 }

/-- The sample source, image, job, deployment configuration and deployment. -/
def sampleSource : Source := { App := "web" }

/-- The sample image. -/
def sampleImage : Image := { Image := "web", Tag := "latest" }

/-- The sample job. -/
def sampleJob : JobInfo := { Workspace := "default" }

/-- The sample deployment configuration. -/
def sampleDeployConfig : DeploymentConfig := { Env := [] }

/-- The deployment record being filled by a deploy. -/
def sampleResult : Deployment := { Id := "d1", Name := "web" }

/-- A configuration that sets the service port only. -/
def plainConfig : PlatformConfig := { ServicePort := 3000 }

/-- A deployment made before resource state was stored: only the container
id is known. -/
def legacyDeployment : Deployment := { Id := "d1", Name := "web", Container := "c1" }

/-- Two networks carrying the label "use=waypoint". -/
def twoNetworks : List NetworkResource :=
  [{ Name := "waypoint", ID := "n1", Created := 0, rest := "" },
   { Name := "waypoint-old", ID := "n2", Created := 0, rest := "" }]

/-- The manager state the legacy restore path of `Status` sets for a
deployment. -/
def legacyManager (deployment : Deployment) : Manager :=
  { network := { Name := "waypoint" }, container := { Id := deployment.Container } }

/-- The container of `runningInfo` in the middle of a restart after a clean
exit: the engine reports it running and restarting, with exit code 0. -/
def restartingCleanInfo : ContainerJSON :=
  { runningInfo with State := { runningInfo.State with Status := "restarting", Restarting := true } }

/-- The container of `runningInfo` restarting after the kernel killed it for
memory: running, restarting, OOM-killed, exit code 137. -/
def oomRestartingInfo : ContainerJSON :=
  { runningInfo with State := { runningInfo.State with
      Status := "restarting", Restarting := true, OOMKilled := true, ExitCode := 137 } }

/-- The container of `runningInfo` stopped after the kernel killed it for
memory: OOM-killed, exit code 137. -/
def oomExitedInfo : ContainerJSON :=
  { runningInfo with State := { runningInfo.State with
      Status := "exited", Running := false, OOMKilled := true, ExitCode := 137 } }

/-- A configuration that publishes the service port 3000 on host port 8000,
the port 8080 twice (host ports 80 and 81), and the extra port 9000 on host
port 9001. -/
def publishedConfig : PlatformConfig :=
  { PublishedPorts := "3000:8000,8080:80,8080:81,9000:9001", ExtraPorts := [9000],
    ServicePort := 3000 }

/-- A configuration that leaves the service port unset. -/
def unsetPortConfig : PlatformConfig := {}

theorem containerHealth_noCheck (st : ContainerState) (h : st.Health = none) :
    (containerHealth st).1 =
      if st.Running = true ∧ st.ExitCode = 0 then Health.READY
      else if st.Restarting = true ∨ st.Status = "created" then Health.ALIVE
      else if st.Dead = true ∨ st.OOMKilled = true ∨ st.ExitCode ≠ 0 then Health.DOWN
      else Health.UNKNOWN := by
  unfold containerHealth
  rw [h]
  simp only [Bool.and_eq_true, Bool.or_eq_true, beq_iff_eq, bne_iff_ne]
  split_ifs <;> first | rfl | tauto

theorem containerHealth_check (st : ContainerState) (hc : HealthCheck) (h : st.Health = some hc) :
    (containerHealth st).1 =
      if hc.Status = "Healthy" then Health.READY
      else if hc.Status = "Unhealthy" then Health.DOWN
      else if hc.Status = "Starting" then Health.ALIVE
      else Health.UNKNOWN := by
  unfold containerHealth
  rw [h]
  simp only
  split_ifs <;> rfl

/-- What the status hook returns for a container the engine could inspect,
when the timestamp parses and the document marshals. -/
theorem status_inspected {σ : Type} (lib : Lib) (cli : Client σ) (container : Resource_Container)
    (sr : StatusResponse) (w : World σ) (info : ContainerJSON) (t : Timestamp) (js : String)
    (hi : (cli.ContainerInspect w.eng container.Id).1 = .ok info)
    (ht : lib.timeParse info.Created = .ok t)
    (hm : lib.marshalContainer (containerStateDoc info) = .ok js) :
    (resourceContainerStatus lib cli container sr w).1 = none ∧
    (resourceContainerStatus lib cli container sr w).2.1.Resources = sr.Resources ++ [{
        Name := trimLeadingSlash info.Name, Id := info.ID, CategoryDisplayHint := .INSTANCE,
        Health := (containerHealth info.State).1, HealthMessage := (containerHealth info.State).2,
        StateJson := js, CreatedTime := some t }] := by
  simp [resourceContainerStatus, World.call, World.emit, hi, ht, hm]

/-- C1: in `resourceContainerStatus`, a container that was inspected and has
no health-check object is reported with the health its raw run state decides,
in this order: running with exit code 0 is READY; else restarting or status
"created" is ALIVE; else dead, OOM-killed or a non-zero exit code is DOWN; else
UNKNOWN. -/
theorem resourceContainerStatus_health_from_run_state {σ : Type} (lib : Lib) (cli : Client σ)
    (container : Resource_Container) (sr : StatusResponse) (w : World σ)
    (info : ContainerJSON) (t : Timestamp) (js : String)
    (hi : (cli.ContainerInspect w.eng container.Id).1 = .ok info)
    (ht : lib.timeParse info.Created = .ok t)
    (hm : lib.marshalContainer (containerStateDoc info) = .ok js)
    (hh : info.State.Health = none) :
    (resourceContainerStatus lib cli container sr w).1 = none ∧
    ∃ r, (resourceContainerStatus lib cli container sr w).2.1.Resources = sr.Resources ++ [r] ∧
      r.Health =
        if info.State.Running = true ∧ info.State.ExitCode = 0 then Health.READY
        else if info.State.Restarting = true ∨ info.State.Status = "created" then Health.ALIVE
        else if info.State.Dead = true ∨ info.State.OOMKilled = true ∨ info.State.ExitCode ≠ 0
          then Health.DOWN
        else Health.UNKNOWN := by
  obtain ⟨h1, h2⟩ := status_inspected lib cli container sr w info t js hi ht hm
  exact ⟨h1, _, h2, containerHealth_noCheck info.State hh⟩

/-- Witness of C1: the running sample container is reported READY. -/
theorem resourceContainerStatus_health_from_run_state_witness :
    (resourceContainerStatus sampleLib (scriptedClient [] (.ok runningInfo) none)
        sampleContainer {} emptyWorld).1 = none ∧
    ∃ r, (resourceContainerStatus sampleLib (scriptedClient [] (.ok runningInfo) none)
        sampleContainer {} emptyWorld).2.1.Resources = [] ++ [r] ∧ r.Health = Health.READY :=
  resourceContainerStatus_health_from_run_state sampleLib
    (scriptedClient [] (.ok runningInfo) none) sampleContainer {} emptyWorld runningInfo 0
    "id=c1 env=" rfl rfl rfl rfl

/-- C2: in `resourceContainerStatus`, a container that was inspected and
carries a health-check object is reported by the health-check status alone:
"Healthy" is READY, "Unhealthy" is DOWN, "Starting" is ALIVE, any other value
is UNKNOWN, whatever the raw run state is. -/
theorem resourceContainerStatus_health_from_check {σ : Type} (lib : Lib) (cli : Client σ)
    (container : Resource_Container) (sr : StatusResponse) (w : World σ)
    (info : ContainerJSON) (t : Timestamp) (js : String) (hc : HealthCheck)
    (hi : (cli.ContainerInspect w.eng container.Id).1 = .ok info)
    (ht : lib.timeParse info.Created = .ok t)
    (hm : lib.marshalContainer (containerStateDoc info) = .ok js)
    (hh : info.State.Health = some hc) :
    (resourceContainerStatus lib cli container sr w).1 = none ∧
    ∃ r, (resourceContainerStatus lib cli container sr w).2.1.Resources = sr.Resources ++ [r] ∧
      r.Health =
        if hc.Status = "Healthy" then Health.READY
        else if hc.Status = "Unhealthy" then Health.DOWN
        else if hc.Status = "Starting" then Health.ALIVE
        else Health.UNKNOWN := by
  obtain ⟨h1, h2⟩ := status_inspected lib cli container sr w info t js hi ht hm
  exact ⟨h1, _, h2, containerHealth_check info.State hc hh⟩

/-- Witness of C2: the sample container is running with exit code 0, and its
health check in state "Unhealthy" makes the report DOWN. -/
theorem resourceContainerStatus_health_from_check_witness :
    unhealthyInfo.State.Running = true ∧ unhealthyInfo.State.ExitCode = 0 ∧
    (resourceContainerStatus sampleLib (scriptedClient [] (.ok unhealthyInfo) none)
        sampleContainer {} emptyWorld).1 = none ∧
    ∃ r, (resourceContainerStatus sampleLib (scriptedClient [] (.ok unhealthyInfo) none)
        sampleContainer {} emptyWorld).2.1.Resources = [] ++ [r] ∧ r.Health = Health.DOWN :=
  ⟨rfl, rfl, resourceContainerStatus_health_from_check sampleLib
    (scriptedClient [] (.ok unhealthyInfo) none) sampleContainer {} emptyWorld unhealthyInfo 0
    "id=c1 env=" { Status := "Unhealthy" } rfl rfl rfl rfl⟩

/-- C6: `resourceContainerDestroy` tolerates a container that is already gone:
when the inspection of the recorded id reports not-found, the hook returns no
error, the only engine call it issues is that inspection (no remove call), it
opens no progress step, and it leaves the state as it was. -/
theorem resourceContainerDestroy_not_found {σ : Type} (cli : Client σ)
    (state : Resource_Container) (w : World σ) (err : Err)
    (hi : (cli.ContainerInspect w.eng state.Id).1 = .error err) (hn : err.notFound = true) :
    (resourceContainerDestroy cli state w).1 = none ∧
    (resourceContainerDestroy cli state w).2.1 = state ∧
    (resourceContainerDestroy cli state w).2.2.calls = w.calls ++ [Call.ContainerInspect state.Id] ∧
    (∀ id force, Call.ContainerRemove id force ∈ (resourceContainerDestroy cli state w).2.2.calls →
      Call.ContainerRemove id force ∈ w.calls) ∧
    (resourceContainerDestroy cli state w).2.2.ui = w.ui := by
  simp [resourceContainerDestroy, World.call, hi, hn]

/-- Witness of C6: destroying the sample container on an engine that does not
know it. -/
theorem resourceContainerDestroy_not_found_witness :
    (resourceContainerDestroy (scriptedClient [] (.error notFoundErr) none)
      sampleContainer emptyWorld).1 = none ∧
    (resourceContainerDestroy (scriptedClient [] (.error notFoundErr) none)
      sampleContainer emptyWorld).2.2.calls = [Call.ContainerInspect "c1"] ∧
    (resourceContainerDestroy (scriptedClient [] (.error notFoundErr) none)
      sampleContainer emptyWorld).2.2.ui = [] :=
  have h := resourceContainerDestroy_not_found (scriptedClient [] (.error notFoundErr) none)
    sampleContainer emptyWorld notFoundErr rfl rfl
  ⟨h.1, h.2.2.1, h.2.2.2.2⟩

/-- C9: a missing container is reported in-band: when the inspection of the
recorded container reports not-found, `resourceContainerStatus` returns no
error, appends exactly one record to the report, that record has health
MISSING and the name and id of the resource state, and the resource state is
unchanged. -/
theorem resourceContainerStatus_missing {σ : Type} (lib : Lib) (cli : Client σ)
    (container : Resource_Container) (sr : StatusResponse) (w : World σ) (err : Err)
    (hi : (cli.ContainerInspect w.eng container.Id).1 = .error err)
    (hn : err.notFound = true) :
    (resourceContainerStatus lib cli container sr w).1 = none ∧
    (resourceContainerStatus lib cli container sr w).2.1.Resources = sr.Resources ++ [{
        Name := container.Name, Id := container.Id, CategoryDisplayHint := .INSTANCE,
        Health := .MISSING }] ∧
    (resourceContainerStatus lib cli container sr w).2.2.1 = container := by
  simp [resourceContainerStatus, World.call, World.emit, hi, hn]

/-- Witness of C9: the status of the sample container on an engine that does
not know it. -/
theorem resourceContainerStatus_missing_witness :
    (resourceContainerStatus sampleLib (scriptedClient [] (.error notFoundErr) none)
      sampleContainer {} emptyWorld).1 = none ∧
    (resourceContainerStatus sampleLib (scriptedClient [] (.error notFoundErr) none)
      sampleContainer {} emptyWorld).2.1.Resources =
        [{ Name := "app-d1", Id := "c1", CategoryDisplayHint := .INSTANCE, Health := .MISSING }] ∧
    (resourceContainerStatus sampleLib (scriptedClient [] (.error notFoundErr) none)
      sampleContainer {} emptyWorld).2.2.1 = sampleContainer :=
  resourceContainerStatus_missing sampleLib (scriptedClient [] (.error notFoundErr) none)
    sampleContainer {} emptyWorld notFoundErr rfl rfl

/-- C8: environment variables are redacted from the container status report.
Two successful inspections that differ only in the configured environment
list give the same error result and the same status response, state text
included; and when a record is reported, its state text is the marshalled
form of a document whose environment list is empty. -/
theorem resourceContainerStatus_redacts_env {σ τ : Type} (lib : Lib) (cli : Client σ)
    (cli2 : Client τ) (container : Resource_Container) (sr : StatusResponse) (w : World σ)
    (w2 : World τ) (info : ContainerJSON) (env2 : List String)
    (hi : (cli.ContainerInspect w.eng container.Id).1 = .ok info)
    (hi2 : (cli2.ContainerInspect w2.eng container.Id).1 =
      .ok { info with Config := { info.Config with Env := env2 } }) :
    (resourceContainerStatus lib cli container sr w).1 =
      (resourceContainerStatus lib cli2 container sr w2).1 ∧
    (resourceContainerStatus lib cli container sr w).2.1 =
      (resourceContainerStatus lib cli2 container sr w2).2.1 ∧
    ((resourceContainerStatus lib cli container sr w).1 = none →
      ∃ r doc, (resourceContainerStatus lib cli container sr w).2.1.Resources = sr.Resources ++ [r] ∧
        lib.marshalContainer doc = .ok r.StateJson ∧
        doc.dockerContainerInfo.Config.Env = [] ∧
        doc.dockerContainerInfo = { info with Config := { info.Config with Env := [] } }) := by
  have hdoc : containerStateDoc { info with Config := { info.Config with Env := env2 } }
      = containerStateDoc info := rfl
  refine ⟨?_, ?_, ?_⟩
  · simp only [resourceContainerStatus, World.call, World.emit, hi, hi2, hdoc]
    cases lib.timeParse info.Created <;> simp only
    cases lib.marshalContainer (containerStateDoc info) <;> simp only
  · simp only [resourceContainerStatus, World.call, World.emit, hi, hi2, hdoc]
    cases lib.timeParse info.Created <;> simp only
    cases lib.marshalContainer (containerStateDoc info) <;> simp only
  · intro h
    cases ht : lib.timeParse info.Created with
    | error e => simp [resourceContainerStatus, World.call, World.emit, hi, ht] at h
    | ok t =>
      cases hm : lib.marshalContainer (containerStateDoc info) with
      | error e => simp [resourceContainerStatus, World.call, World.emit, hi, ht, hm] at h
      | ok js =>
        obtain ⟨_, h2⟩ := status_inspected lib cli container sr w info t js hi ht hm
        exact ⟨_, containerStateDoc info, h2, hm, rfl, rfl⟩

/-- Witness of C8: the sample container with its secret and with another
environment give the same report, whose state text is the marshalled form of
a document without environment and shows no variable. -/
theorem resourceContainerStatus_redacts_env_witness :
    (resourceContainerStatus sampleLib (scriptedClient [] (.ok runningInfo) none)
        sampleContainer {} emptyWorld).2.1 =
      (resourceContainerStatus sampleLib (scriptedClient []
        (.ok { runningInfo with Config := { runningInfo.Config with Env := ["A=b", "C=d"] } })
        none) sampleContainer {} emptyWorld).2.1 ∧
    (∃ r doc, (resourceContainerStatus sampleLib (scriptedClient [] (.ok runningInfo) none)
        sampleContainer {} emptyWorld).2.1.Resources = [] ++ [r] ∧
      sampleLib.marshalContainer doc = .ok r.StateJson ∧
      doc.dockerContainerInfo.Config.Env = [] ∧
      doc.dockerContainerInfo =
        { runningInfo with Config := { runningInfo.Config with Env := [] } }) ∧
    (resourceContainerStatus sampleLib (scriptedClient [] (.ok runningInfo) none)
        sampleContainer {} emptyWorld).2.1.Resources.map (fun r => r.StateJson) = ["id=c1 env="] :=
  have h := resourceContainerStatus_redacts_env sampleLib
    (scriptedClient [] (.ok runningInfo) none)
    (scriptedClient [] (.ok { runningInfo with
      Config := { runningInfo.Config with Env := ["A=b", "C=d"] } }) none)
    sampleContainer {} emptyWorld emptyWorld runningInfo ["A=b", "C=d"] rfl rfl
  ⟨h.2.1, h.2.2 rfl, rfl⟩

/-! ## Published ports -/

theorem splitChars_ne_nil (sep : Char) (l : List Char) : splitChars sep l ≠ [] := by
  cases l with
  | nil => simp [splitChars]
  | cons c cs =>
    unfold splitChars
    split_ifs
    · simp
    · split <;> simp

theorem splitChars_of_not_mem (sep : Char) (l : List Char) (h : sep ∉ l) :
    splitChars sep l = [l] := by
  induction l with
  | nil => rfl
  | cons c cs ih =>
    have hc : c ≠ sep := fun e => h (by simp [e])
    have hcs : sep ∉ cs := fun e => h (by simp [e])
    simp [splitChars, hc, ih hcs]

theorem splitChars_append_sep (sep : Char) (a b : List Char) (h : sep ∉ a) :
    splitChars sep (a ++ sep :: b) = a :: splitChars sep b := by
  induction a with
  | nil => simp [splitChars]
  | cons c cs ih =>
    have hc : c ≠ sep := fun e => h (by simp [e])
    have hcs : sep ∉ cs := fun e => h (by simp [e])
    simp [splitChars, hc, ih hcs]

theorem splitChars_length (sep : Char) (l : List Char) :
    (splitChars sep l).length = l.count sep + 1 := by
  induction l with
  | nil => rfl
  | cons c cs ih =>
    by_cases hc : c = sep
    · simp [splitChars, hc, ih]
    · have hne : splitChars sep cs ≠ [] := splitChars_ne_nil sep cs
      unfold splitChars
      rw [if_neg hc]
      cases hs : splitChars sep cs with
      | nil => exact absurd hs hne
      | cons x xs =>
        rw [hs] at ih
        simp only [List.length_cons] at ih ⊢
        rw [List.count_cons_of_ne (Ne.symm hc)]
        omega

theorem string_mk_data (s : String) : String.mk s.data = s := rfl

theorem parseProtoField_render (p : List Char) (proto : Option String) (hp : '/' ∉ p)
    (hq : ∀ q, proto = some q → '/' ∉ q.data) :
    parseProtoField (String.mk (p ++ protoSuffix proto)) = .ok (String.mk p, proto.getD "tcp") := by
  cases proto with
  | none =>
    simp [parseProtoField, strSplit, protoSuffix, splitChars_of_not_mem _ _ hp]
  | some q =>
    have hq2 := hq q rfl
    simp [parseProtoField, strSplit, protoSuffix, splitChars_append_sep _ _ _ hp,
      splitChars_of_not_mem _ _ hq2, string_mk_data]

theorem not_mem_protoSuffix (c : Char) (hc : c ≠ '/') (proto : Option String)
    (hq : ∀ q, proto = some q → c ∉ q.data) : c ∉ protoSuffix proto := by
  cases proto with
  | none => simp [protoSuffix]
  | some q => simpa [protoSuffix, hc] using hq q rfl

theorem not_mem_hostSuffix (c : Char) (hc : c ≠ ':') (host : Option String)
    (hq : ∀ q, host = some q → c ∉ q.data) : c ∉ hostSuffix host := by
  cases host with
  | none => simp [hostSuffix]
  | some q => simpa [hostSuffix, hc] using hq q rfl

theorem parsePublishPortField_render (e : PublishedEntry) (h : e.plain) :
    parsePublishPortField (String.mk e.render) = .ok e.field := by
  obtain ⟨⟨_, hc2, hc3⟩, hh, hq⟩ := h
  have hqs : ∀ q, e.proto = some q → '/' ∉ q.data := fun q h => (hq q h).2.2
  have hqc : ':' ∉ protoSuffix e.proto :=
    not_mem_protoSuffix ':' (by decide) e.proto (fun q h => (hq q h).2.1)
  cases hhost : e.hostPort with
  | none =>
    have hno : ':' ∉ e.containerPort.data ++ protoSuffix e.proto := by
      simp [hc2, hqc]
    simp [parsePublishPortField, strSplit, PublishedEntry.render, PublishedEntry.field, hhost,
      hostSuffix, splitChars_of_not_mem _ _ hno, parseProtoField_render _ _ hc3 hqs,
      string_mk_data]
  | some hp =>
    have hhp := hh hp hhost
    have hno : ':' ∉ hp.data ++ protoSuffix e.proto := by
      simp [hhp.2.1, hqc]
    simp [parsePublishPortField, strSplit, PublishedEntry.render, PublishedEntry.field, hhost,
      hostSuffix, splitChars_append_sep _ _ _ hc2, splitChars_of_not_mem _ _ hno,
      parseProtoField_render _ _ hhp.2.2 hqs, string_mk_data]

theorem parsePublishPortsLoop_map {α : Type} (g : α → String) (f : α → portField)
    (xs : List α) (h : ∀ x ∈ xs, parsePublishPortField (g x) = .ok (f x))
    (pfs : List portField) :
    parsePublishPortsLoop (xs.map g) pfs = .ok (pfs ++ xs.map f) := by
  induction xs generalizing pfs with
  | nil => simp [parsePublishPortsLoop]
  | cons x xs ih =>
    have hx := h x (by simp)
    have hxs : ∀ y ∈ xs, parsePublishPortField (g y) = .ok (f y) :=
      fun y hy => h y (by simp [hy])
    simp [parsePublishPortsLoop, hx, ih hxs]

theorem parsePublishPortsLoop_error (ts : List String) (t : String) (e : Err) (ht : t ∈ ts)
    (he : parsePublishPortField t = .error e) (pfs : List portField) :
    ∃ e2, parsePublishPortsLoop ts pfs = .error e2 := by
  induction ts generalizing pfs with
  | nil => simp at ht
  | cons x xs ih =>
    unfold parsePublishPortsLoop
    cases hx : parsePublishPortField x with
    | error e3 => exact ⟨e3, rfl⟩
    | ok pf =>
      rcases List.mem_cons.mp ht with h1 | h1
      · rw [← h1, he] at hx
        cases hx
      · exact ih h1 _

theorem not_mem_render (e : PublishedEntry) (h : e.plain) : ',' ∉ e.render := by
  obtain ⟨⟨hc1, _, _⟩, hh, hq⟩ := h
  have h1 := not_mem_hostSuffix ',' (by decide) e.hostPort (fun q h => (hh q h).1)
  have h2 := not_mem_protoSuffix ',' (by decide) e.proto (fun q h => (hq q h).1)
  simp [PublishedEntry.render, hc1, h1, h2]

theorem splitChars_joinComma (xs : List (List Char)) (hne : xs ≠ [])
    (h : ∀ x ∈ xs, ',' ∉ x) : splitChars ',' (joinComma xs) = xs := by
  induction xs with
  | nil => exact absurd rfl hne
  | cons x rest ih =>
    cases rest with
    | nil => simpa [joinComma] using splitChars_of_not_mem ',' x (h x (by simp))
    | cons y ys =>
      have hx := h x (by simp)
      have hr : ∀ z ∈ y :: ys, ',' ∉ z := fun z hz => h z (List.mem_cons_of_mem _ hz)
      simp only [joinComma]
      rw [splitChars_append_sep _ _ _ hx, ih (by simp) hr]

/-- C3, as amended: for every list of entries whose texts contain no comma,
colon or slash and whose comma-joined text `containerPort[:hostPort][/proto]`
is not empty, `parsePublishPorts` succeeds on that text and returns exactly
those entries in the same order, with host port "" where it was omitted and
protocol "tcp" where it was omitted. -/
theorem parsePublishPorts_render (es : List PublishedEntry) (hplain : ∀ e ∈ es, e.plain)
    (hne : renderPublishedPorts es ≠ "") :
    parsePublishPorts (renderPublishedPorts es) = .ok (es.map PublishedEntry.field) := by
  have hes : es ≠ [] := by
    rintro rfl
    exact hne rfl
  have hlen : (renderPublishedPorts es).length ≠ 0 := by
    intro h0
    apply hne
    have : (renderPublishedPorts es).data = [] := List.length_eq_zero.mp h0
    show String.mk (renderPublishedPorts es).data = ""
    rw [this]
  have hsplit : strSplit (renderPublishedPorts es) ',' =
      es.map (fun e => String.mk e.render) := by
    unfold strSplit renderPublishedPorts
    rw [splitChars_joinComma _ (by simpa using hes)
      (by simpa using fun e he => not_mem_render e (hplain e he))]
    rw [List.map_map]
    rfl
  have hloop := parsePublishPortsLoop_map (fun e => String.mk e.render) PublishedEntry.field es
    (fun e he => parsePublishPortField_render e (hplain e he)) []
  unfold parsePublishPorts
  rw [if_neg hlen, hsplit, hloop]
  rfl

/-- Witness of C3: the two examples of the specification. -/
theorem parsePublishPorts_render_witness :
    parsePublishPorts "3000:3001/tcp,8080:80" =
      .ok [⟨"3000", "3001", "tcp"⟩, ⟨"8080", "80", "tcp"⟩] ∧
    parsePublishPorts "9000" = .ok [⟨"9000", "", "tcp"⟩] :=
  ⟨parsePublishPorts_render [⟨"3000", some "3001", some "tcp"⟩, ⟨"8080", some "80", none⟩]
      (by simp [PublishedEntry.plain, plainText]) (by decide),
    parsePublishPorts_render [⟨"9000", none, none⟩]
      (by simp [PublishedEntry.plain, plainText]) (by decide)⟩

/-- Counterexample to C3 as stated: the list of the one entry with an empty
container port, no host port and no protocol is non-empty and its texts hold
no comma, colon or slash, but its text is empty and parses to no entry. -/
theorem parsePublishPorts_empty_text_entry :
    [(⟨"", none, none⟩ : PublishedEntry)] ≠ [] ∧
    (∀ e ∈ [(⟨"", none, none⟩ : PublishedEntry)], e.plain) ∧
    parsePublishPorts (renderPublishedPorts [⟨"", none, none⟩]) = .ok [] ∧
    parsePublishPorts (renderPublishedPorts [⟨"", none, none⟩]) ≠
      .ok ([(⟨"", none, none⟩ : PublishedEntry)].map PublishedEntry.field) := by
  refine ⟨by simp, by simp [PublishedEntry.plain, plainText], rfl, ?_⟩
  have h : parsePublishPorts (renderPublishedPorts [⟨"", none, none⟩]) = .ok [] := rfl
  rw [h]
  simp

theorem strSplit_length (s : String) (sep : Char) :
    (strSplit s sep).length = s.data.count sep + 1 := by
  simp [strSplit, splitChars_length]

theorem parseProtoField_error (v : String) (h : 2 ≤ v.data.count '/') :
    ∃ e, parseProtoField v = .error e := by
  have hl := strSplit_length v '/'
  unfold parseProtoField
  match hs : strSplit v '/' with
  | [] => exact ⟨_, rfl⟩
  | [_] => rw [hs] at hl; simp at hl; omega
  | [_, _] => rw [hs] at hl; simp at hl; omega
  | _ :: _ :: _ :: _ => exact ⟨_, rfl⟩

theorem parsePublishPortField_error (entry : String) (h : malformedEntry entry) :
    ∃ e, parsePublishPortField entry = .error e := by
  have hl := strSplit_length entry ':'
  unfold malformedEntry portProtoSegment at h
  unfold parsePublishPortField
  match hs : strSplit entry ':' with
  | [] => exact ⟨_, rfl⟩
  | [t0] =>
    rw [hs] at hl h
    simp at hl
    rcases h with h | h
    · omega
    · obtain ⟨e, he⟩ := parseProtoField_error t0 (by simpa using h)
      exact ⟨e, by simp [he]⟩
  | [t0, t1] =>
    rw [hs] at hl h
    simp at hl
    rcases h with h | h
    · omega
    · obtain ⟨e, he⟩ := parseProtoField_error t1 (by simpa using h)
      exact ⟨e, by simp [he]⟩
  | _ :: _ :: _ :: _ => exact ⟨_, rfl⟩

/-- C4: `parsePublishPorts` rejects malformed input: when some comma-separated
entry of the input contains more than one colon, or more than one slash in its
port/proto segment, the call returns an error and no port list, whatever the
other entries are. -/
theorem parsePublishPorts_malformed (s entry : String) (hmem : entry ∈ strSplit s ',')
    (hbad : malformedEntry entry) : ∃ e, parsePublishPorts s = .error e := by
  have hlen : s.length ≠ 0 := by
    intro h0
    have hd : s.data = [] := List.length_eq_zero.mp h0
    have he : entry = "" := by
      simpa [strSplit, hd, splitChars] using hmem
    subst he
    rcases hbad with h | h
    · simp at h
    · have : portProtoSegment "" = "" := rfl
      rw [this] at h
      simp at h
  obtain ⟨e, he⟩ := parsePublishPortField_error entry hbad
  unfold parsePublishPorts
  rw [if_neg hlen]
  exact parsePublishPortsLoop_error _ entry e hmem he []

/-- Witness of C4: "a:b:c" is rejected, and so is "8080:80,1/2/3" whose first
entry is well-formed. -/
theorem parsePublishPorts_malformed_witness :
    (∃ e, parsePublishPorts "a:b:c" = .error e) ∧
    (∃ e, parsePublishPorts "8080:80,1/2/3" = .error e) :=
  ⟨parsePublishPorts_malformed "a:b:c" "a:b:c" (by decide) (Or.inl (by decide)),
    parsePublishPorts_malformed "8080:80,1/2/3" "1/2/3" (by decide) (Or.inr (by decide))⟩

/-! ## Labels -/

theorem GoMap_get_set_self {β : Type} (m : List (String × β)) (k : String) (v : β) :
    GoMap.get (GoMap.set m k v) k = some v := by
  induction m with
  | nil => simp [GoMap.set, GoMap.get]
  | cons kv m ih =>
    obtain ⟨k0, v0⟩ := kv
    by_cases h : k0 = k
    · simp [GoMap.set, GoMap.get, h]
    · simp [GoMap.set, GoMap.get, h, ih]

theorem GoMap_get_set_other {β : Type} (m : List (String × β)) (k k2 : String) (v : β)
    (hk : k2 ≠ k) : GoMap.get (GoMap.set m k v) k2 = GoMap.get m k2 := by
  induction m with
  | nil => simp [GoMap.set, GoMap.get, Ne.symm hk]
  | cons kv m ih =>
    obtain ⟨k0, v0⟩ := kv
    by_cases h : k0 = k
    · subst h
      simp [GoMap.set, GoMap.get, Ne.symm hk]
    · by_cases h2 : k0 = k2
      · subst h2
        simp [GoMap.set, GoMap.get, h]
      · simp [GoMap.set, GoMap.get, h, h2, ih]

theorem writeLabels_get_other (visit labels : List (String × String)) (k : String)
    (hk : ∀ kv ∈ visit, kv.1 ≠ k) :
    GoMap.get (writeLabels labels visit) k = GoMap.get labels k := by
  induction visit generalizing labels with
  | nil => rfl
  | cons kv visit ih =>
    have h1 : kv.1 ≠ k := hk kv (by simp)
    have h2 : ∀ x ∈ visit, x.1 ≠ k := fun x hx => hk x (by simp [hx])
    simp only [writeLabels, List.foldl_cons] at ih ⊢
    rw [ih _ h2, GoMap_get_set_other _ _ _ _ (Ne.symm h1)]

theorem writeLabels_get_written (visit labels : List (String × String)) (k v : String)
    (hmem : (k, v) ∈ visit) (hnd : (visit.map Prod.fst).Nodup) :
    GoMap.get (writeLabels labels visit) k = some v := by
  induction visit generalizing labels with
  | nil => simp at hmem
  | cons kv visit ih =>
    simp only [List.map_cons, List.nodup_cons] at hnd
    simp only [writeLabels, List.foldl_cons] at ih ⊢
    rcases List.mem_cons.mp hmem with h | h
    · subst h
      have hk : ∀ x ∈ visit, x.1 ≠ k := by
        intro x hx hxk
        exact hnd.1 (List.mem_map.mpr ⟨x, hx, hxk⟩)
      have := writeLabels_get_other visit (GoMap.set labels k v) k hk
      simp only [writeLabels] at this
      rw [this, GoMap_get_set_self]
    · exact ih _ h hnd.2

theorem pullImage_calls {σ : Type} (lib : Lib) (cli : Client σ) (img : Image) (force : Bool)
    (w : World σ) (args : ContainerCreateArgs)
    (h : Call.ContainerCreate args ∈ (pullImage lib cli img force w).2.calls) :
    Call.ContainerCreate args ∈ w.calls := by
  unfold pullImage at h
  simp only [World.call, World.emit] at h
  split at h
  · split at h
    · simpa using h
    · split at h
      · simpa using h
      · repeat' split at h
        all_goals simpa using h
  · repeat' split at h
    all_goals simpa using h

theorem connectLoop_calls {σ : Type} (cli : Client σ) (id : String) (nets : List String)
    (w : World σ) (args : ContainerCreateArgs)
    (h : Call.ContainerCreate args ∈ (connectLoop cli id nets w).2.calls) :
    Call.ContainerCreate args ∈ w.calls := by
  induction nets generalizing w with
  | nil => simpa [connectLoop] using h
  | cons n nets ih =>
    unfold connectLoop at h
    simp only [World.call] at h
    split at h
    · simpa using h
    · simpa using ih _ h

theorem buildCreateArgs_labels (lib : Lib) (p p2 : PlatformConfig) (src : Source) (img : Image)
    (job : JobInfo) (deployConfig : DeploymentConfig) (result : Deployment)
    (netState : Resource_Network) (args : ContainerCreateArgs)
    (h : buildCreateArgs lib p src img job deployConfig result netState = .ok (p2, args)) :
    args.config.Labels = mergeLabels lib p src job result ∧
    p2.Labels = some (mergeLabels lib p src job result) ∧
    args.name = (if p.UseAppAsContainerName then src.App else src.App ++ "-" ++ result.Id) := by
  unfold buildCreateArgs at h
  split at h
  · cases h
  split at h
  · cases h
  split at h
  · cases h
  split at h
  · cases h
  simp only [Except.ok.injEq, Prod.mk.injEq] at h
  obtain ⟨h1, h2⟩ := h
  subst h1 h2
  exact ⟨rfl, rfl, rfl⟩

theorem connectAndStart_calls {σ : Type} (cli : Client σ) (p : PlatformConfig) (step id : String)
    (w : World σ) (args : ContainerCreateArgs)
    (h : Call.ContainerCreate args ∈ (connectAndStart cli p step id w).2.calls) :
    Call.ContainerCreate args ∈ w.calls := by
  unfold connectAndStart at h
  cases hn : p.Networks with
  | none =>
    simp only [hn, World.call, World.emit] at h
    split at h <;> simpa using h
  | some nets =>
    simp only [hn] at h
    have hc := connectLoop_calls cli id nets
      (w.emit (.Update step "Connecting additional networks to container...")) args
    cases hl : connectLoop cli id nets
      (w.emit (.Update step "Connecting additional networks to container...")) with
    | mk e w2 =>
      rw [hl] at h hc
      cases e with
      | some err => simpa [World.emit] using hc (by simpa [World.emit] using h)
      | none =>
        simp only [World.call, World.emit] at h
        split at h <;> simpa [World.emit] using hc (by simpa using h)

theorem resourceContainerCreate_calls {σ : Type} (lib : Lib) (cli : Client σ)
    (p : PlatformConfig) (src : Source) (img : Image) (job : JobInfo)
    (deployConfig : DeploymentConfig) (result : Deployment) (state : Resource_Container)
    (netState : Resource_Network) (w : World σ) (args : ContainerCreateArgs)
    (h : Call.ContainerCreate args ∈
      (resourceContainerCreate lib cli p src img job deployConfig result state netState w).2.2.2.calls) :
    Call.ContainerCreate args ∈ w.calls ∨
      args.config.Labels = mergeLabels lib p src job result := by
  unfold resourceContainerCreate at h
  split at h
  · next err w1 heq =>
    have h1 := pullImage_calls lib cli img p.ForcePull w args
    rw [heq] at h1
    exact Or.inl (h1 h)
  · next w1 heq =>
    have h1 := pullImage_calls lib cli img p.ForcePull w args
    rw [heq] at h1
    split at h
    · exact Or.inl (h1 (by simpa [World.emit] using h))
    · next p2 args2 hb =>
      have hl := (buildCreateArgs_labels lib p p2 src img job deployConfig result netState
        args2 hb).1
      simp only [World.call] at h
      split at h
      · simp only [World.emit, List.mem_append, List.mem_singleton] at h
        rcases h with h | h
        · exact Or.inl (h1 h)
        · right
          cases h
          exact hl
      · have hc := connectAndStart_calls cli p2 "Creating new container..." _ _ args
          (by simpa [World.emit] using h)
        simp only [World.emit, List.mem_append, List.mem_singleton] at hc
        rcases hc with h | h
        · exact Or.inl (h1 h)
        · right
          cases h
          exact hl

theorem defaultLabels_get (id app ws : String) (k : String) :
    GoMap.get [(labelId, id), ("app", app), ("workspace", ws)] k =
      if labelId = k then some id else if "app" = k then some app
      else if "workspace" = k then some ws else none := by
  simp [GoMap.get]

/-- C5: in the label merge of `resourceContainerCreate`, user labels never
override the reserved keys.  Whatever the user label map is and in whatever
order the default labels are visited, the merged labels map
"waypoint.hashicorp.com/id" to the deployment id, "app" to the application
name and "workspace" to the job workspace, and agree with the user labels on
every other key; they are the labels of every `ContainerCreate` call the hook
issues. -/
theorem mergeLabels_reserved_keys {σ : Type} (lib : Lib) (cli : Client σ) (p : PlatformConfig)
    (src : Source) (img : Image) (job : JobInfo) (deployConfig : DeploymentConfig)
    (result : Deployment) (state : Resource_Container) (netState : Resource_Network)
    (w : World σ) (horder : ∀ m, (lib.mapRange 2 m).Perm m) :
    GoMap.get (mergeLabels lib p src job result) labelId = some result.Id ∧
    GoMap.get (mergeLabels lib p src job result) "app" = some src.App ∧
    GoMap.get (mergeLabels lib p src job result) "workspace" = some job.Workspace ∧
    (∀ k, k ≠ labelId → k ≠ "app" → k ≠ "workspace" →
      GoMap.get (mergeLabels lib p src job result) k = GoMap.get (p.Labels.getD []) k) ∧
    (∀ args, Call.ContainerCreate args ∈ (resourceContainerCreate lib cli p src img job
        deployConfig result state netState w).2.2.2.calls →
      Call.ContainerCreate args ∈ w.calls ∨
        args.config.Labels = mergeLabels lib p src job result) := by
  refine ⟨?_, ?_, ?_, ?_, fun args h =>
    resourceContainerCreate_calls lib cli p src img job deployConfig result state netState w
      args h⟩
  all_goals
    unfold mergeLabels
    cases p.Labels with
    | none => first
      | (intro k h1 h2 h3
         simp [defaultLabels_get, Ne.symm h1, Ne.symm h2, Ne.symm h3, GoMap.get])
      | (rw [defaultLabels_get]; rfl)
    | some labels =>
      have hperm := horder [(labelId, result.Id), ("app", src.App), ("workspace", job.Workspace)]
      have hnd : ((lib.mapRange 2 [(labelId, result.Id), ("app", src.App),
          ("workspace", job.Workspace)]).map Prod.fst).Nodup := by
        rw [(hperm.map Prod.fst).nodup_iff]
        simp only [List.map_cons, List.map_nil]
        decide
      first
      | (intro k h1 h2 h3
         simp only [Option.getD_some]
         apply writeLabels_get_other
         intro kv hkv
         rw [hperm.mem_iff] at hkv
         simp only [List.mem_cons, List.mem_singleton, List.not_mem_nil, or_false] at hkv
         rcases hkv with rfl | rfl | rfl
         · exact Ne.symm h1
         · exact Ne.symm h2
         · exact Ne.symm h3)
      | (apply writeLabels_get_written _ _ _ _ _ hnd
         rw [hperm.mem_iff]
         simp)

/-- Witness of C5: the user labels set "app" to "mine" and "team" to "blue";
the merged labels carry the application name under "app" and keep "team". -/
theorem mergeLabels_reserved_keys_witness :
    GoMap.get (labelledConfig.Labels.getD []) "app" = some "mine" ∧
    GoMap.get (mergeLabels sampleLib labelledConfig sampleSource sampleJob sampleResult)
      "app" = some "web" ∧
    GoMap.get (mergeLabels sampleLib labelledConfig sampleSource sampleJob sampleResult)
      labelId = some "d1" ∧
    GoMap.get (mergeLabels sampleLib labelledConfig sampleSource sampleJob sampleResult)
      "team" = some "blue" :=
  have h := mergeLabels_reserved_keys sampleLib (scriptedClient [] (.error notFoundErr) none)
    labelledConfig sampleSource sampleImage sampleJob sampleDeployConfig sampleResult {}
    { Name := "waypoint" } emptyWorld (fun _ => List.Perm.refl _)
  ⟨rfl, h.2.1, h.1, (h.2.2.2.1 "team" (by decide) (by decide) (by decide)).trans rfl⟩

/-! ## Create hooks and the resource state -/

theorem resourceContainerCreate_failure {σ : Type} (lib : Lib) (cli : Client σ)
    (p : PlatformConfig) (src : Source) (img : Image) (job : JobInfo)
    (deployConfig : DeploymentConfig) (result : Deployment) (state : Resource_Container)
    (netState : Resource_Network) (w : World σ) :
    (resourceContainerCreate lib cli p src img job deployConfig result state netState w).2.2.1
        = state ∨
    ∃ p2 args id, buildCreateArgs lib p src img job deployConfig result netState = .ok (p2, args) ∧
      (cli.ContainerCreate (pullImage lib cli img p.ForcePull w).2.eng args).1 = .ok id ∧
      (resourceContainerCreate lib cli p src img job deployConfig result state netState w).2.2.1
        = { Id := id, Name := args.name } := by
  unfold resourceContainerCreate
  cases hpull : pullImage lib cli img p.ForcePull w with
  | mk e w1 =>
    cases e with
    | some err => exact Or.inl rfl
    | none =>
      cases hb : buildCreateArgs lib p src img job deployConfig result netState with
      | error err => exact Or.inl rfl
      | ok pa =>
        obtain ⟨p2, args⟩ := pa
        simp only [World.call, World.emit]
        cases hid : (cli.ContainerCreate w1.eng args).1 with
        | error err => exact Or.inl rfl
        | ok id => exact Or.inr ⟨p2, args, id, rfl, hid, rfl⟩

/-- Counterexample to C10 as stated: for the legacy deployment with container
id "c1", on an engine that lists two networks with the label, `Status` returns
a report with three resource status entries. -/
theorem Status_legacy_three_entries :
    legacyDeployment.ResourceState = none ∧ legacyDeployment.Container ≠ "" ∧
    ∃ report, (Status sampleLib (scriptedClient twoNetworks (.ok runningInfo) none) plainConfig
        legacyDeployment emptyWorld).1 = .ok report ∧
      report.Resources.length = 3 ∧ report.Resources.length ≠ 2 :=
  ⟨rfl, by decide, _, rfl, rfl, by decide⟩

theorem networkStatusLoop_length (lib : Lib) (nets : List NetworkResource)
    (rs : List StatusReport_Resource) (h : (networkStatusLoop lib nets rs).1 = none) :
    (networkStatusLoop lib nets rs).2.length = rs.length + nets.length := by
  induction nets generalizing rs with
  | nil => simp [networkStatusLoop]
  | cons net nets ih =>
    unfold networkStatusLoop at h ⊢
    cases hm : lib.marshalNetwork net with
    | error e => simp [hm] at h
    | ok js =>
      simp only [hm] at h ⊢
      rw [ih _ h]
      simp
      omega

theorem resourceNetworkStatus_length {σ : Type} (lib : Lib) (cli : Client σ)
    (network : Resource_Network) (sr : StatusResponse) (w : World σ)
    (h : (resourceNetworkStatus lib cli network sr w).1 = none) :
    ∃ nets, (cli.NetworkList w.eng ("use=" ++ network.Name)).1 = .ok nets ∧
      (resourceNetworkStatus lib cli network sr w).2.1.Resources.length =
        sr.Resources.length + max 1 nets.length := by
  unfold resourceNetworkStatus at h ⊢
  simp only [World.call, World.emit] at h ⊢
  cases hl : (cli.NetworkList w.eng ("use=" ++ network.Name)).1 with
  | error e => simp [hl] at h
  | ok nets =>
    refine ⟨nets, rfl, ?_⟩
    simp only [hl] at h ⊢
    by_cases h0 : nets.length = 0
    · simp [h0]
    · simp only [h0, if_false] at h ⊢
      cases hloop : (networkStatusLoop lib nets sr.Resources).1 with
      | some e =>
        rcases hp : networkStatusLoop lib nets sr.Resources with ⟨e2, rs⟩
        rw [hp] at hloop h
        simp only at hloop
        subst hloop
        simp at h
      | none =>
        have hlen := networkStatusLoop_length lib nets sr.Resources hloop
        rcases hp : networkStatusLoop lib nets sr.Resources with ⟨e2, rs⟩
        rw [hp] at hloop hlen
        simp only at hloop hlen
        subst hloop
        simp only [hlen]
        omega

theorem resourceContainerStatus_length {σ : Type} (lib : Lib) (cli : Client σ)
    (container : Resource_Container) (sr : StatusResponse) (w : World σ) :
    (resourceContainerStatus lib cli container sr w).2.1.Resources.length =
      sr.Resources.length + 1 := by
  unfold resourceContainerStatus
  simp only [World.call, World.emit]
  repeat' split
  all_goals simp

theorem restoreState_legacy (d : Deployment) (hd : d.ResourceState = none) :
    restoreState {} d = .ok (legacyManager d) := by
  simp [restoreState, hd, Manager.SetState, legacyManager]

theorem StatusReport_length {σ : Type} (lib : Lib) (cli : Client σ) (rm : Manager)
    (w : World σ) (report : StatusReport) (h : (rm.StatusReport lib cli w).1 = .ok report) :
    ∃ nets, (cli.NetworkList w.eng ("use=" ++ rm.network.Name)).1 = .ok nets ∧
      report.Resources.length = max 1 nets.length + 1 := by
  unfold Manager.StatusReport at h
  have hn := resourceNetworkStatus_length lib cli rm.network {} w
  rcases hnet : resourceNetworkStatus lib cli rm.network {} w with ⟨e1, sr1, n1, w1⟩
  rw [hnet] at h hn
  cases e1 with
  | some err => simp at h
  | none =>
    obtain ⟨nets, hl, hlen⟩ := hn rfl
    refine ⟨nets, hl, ?_⟩
    have hc := resourceContainerStatus_length lib cli rm.container sr1 w1
    rcases hcon : resourceContainerStatus lib cli rm.container sr1 w1 with ⟨e2, sr2, c2, w2⟩
    rw [hcon] at hc
    simp only [hcon] at h
    cases e2 with
    | some err => simp at h
    | none =>
      simp only [Except.ok.injEq] at h
      subst h
      simp only at hc hlen ⊢
      rw [hc, hlen]
      simp

theorem StatusReport_manager {σ : Type} (lib : Lib) (cli : Client σ) (rm : Manager)
    (w : World σ) : (rm.StatusReport lib cli w).2.1 = rm := by
  unfold Manager.StatusReport
  have hnet : (resourceNetworkStatus lib cli rm.network {} w).2.2.1 = rm.network := by
    unfold resourceNetworkStatus
    simp only [World.call, World.emit]
    repeat' split
    all_goals rfl
  have hcon : ∀ sr (w1 : World σ),
      (resourceContainerStatus lib cli rm.container sr w1).2.2.1 = rm.container := by
    intro sr w1
    unfold resourceContainerStatus
    simp only [World.call, World.emit]
    repeat' split
    all_goals rfl
  rcases hn : resourceNetworkStatus lib cli rm.network {} w with ⟨e1, sr1, n1, w1⟩
  rw [hn] at hnet
  simp only at hnet
  subst hnet
  cases e1 with
  | some err => rfl
  | none =>
    simp only
    have h2 := hcon sr1 w1
    rcases hc : resourceContainerStatus lib cli rm.container sr1 w1 with ⟨e2, sr2, c2, w2⟩
    rw [hc] at h2
    simp only at h2
    subst h2
    cases e2 <;> rfl

theorem networkStatusLoop_entries (lib : Lib) (nets : List NetworkResource)
    (rs : List StatusReport_Resource) (h : (networkStatusLoop lib nets rs).1 = none) :
    ∃ new, (networkStatusLoop lib nets rs).2 = rs ++ new ∧
      List.Forall₂ (fun n r => lib.marshalNetwork n = .ok r.StateJson ∧
        r = { Name := n.Name, Id := n.ID, CategoryDisplayHint := .ROUTER, Health := .READY,
              HealthMessage := "exists", StateJson := r.StateJson,
              CreatedTime := some n.Created }) nets new := by
  induction nets generalizing rs with
  | nil => exact ⟨[], by simp [networkStatusLoop], List.Forall₂.nil⟩
  | cons net nets ih =>
    unfold networkStatusLoop at h ⊢
    cases hm : lib.marshalNetwork net with
    | error e => simp [hm] at h
    | ok js =>
      simp only [hm] at h ⊢
      obtain ⟨new, hnew, hall⟩ := ih _ h
      exact ⟨{ Name := net.Name, Id := net.ID, CategoryDisplayHint := .ROUTER,
               Health := .READY, HealthMessage := "exists", StateJson := js,
               CreatedTime := some net.Created } :: new,
        by rw [hnew]; simp, List.Forall₂.cons ⟨hm, rfl⟩ hall⟩

theorem resourceNetworkStatus_entries {σ : Type} (lib : Lib) (cli : Client σ)
    (network : Resource_Network) (sr : StatusResponse) (w : World σ)
    (h : (resourceNetworkStatus lib cli network sr w).1 = none) :
    ∃ nets netRecs, (cli.NetworkList w.eng ("use=" ++ network.Name)).1 = .ok nets ∧
      (resourceNetworkStatus lib cli network sr w).2.1.Resources = sr.Resources ++ netRecs ∧
      (nets = [] → netRecs =
        [{ Name := network.Name, CategoryDisplayHint := .ROUTER, Health := .MISSING }]) ∧
      (nets ≠ [] → List.Forall₂ (fun n r => lib.marshalNetwork n = .ok r.StateJson ∧
        r = { Name := n.Name, Id := n.ID, CategoryDisplayHint := .ROUTER, Health := .READY,
              HealthMessage := "exists", StateJson := r.StateJson,
              CreatedTime := some n.Created }) nets netRecs) := by
  unfold resourceNetworkStatus at h ⊢
  simp only [World.call, World.emit] at h ⊢
  cases hl : (cli.NetworkList w.eng ("use=" ++ network.Name)).1 with
  | error e => simp [hl] at h
  | ok nets =>
    simp only [hl] at h ⊢
    by_cases h0 : nets.length = 0
    · have hnil : nets = [] := List.length_eq_zero.mp h0
      refine ⟨nets, _, rfl, ?_, fun _ => rfl, fun hne => absurd hnil hne⟩
      simp [h0]
    · have hne : nets ≠ [] := fun hn => h0 (by rw [hn]; rfl)
      simp only [h0, if_false] at h ⊢
      rcases hp : networkStatusLoop lib nets sr.Resources with ⟨e2, rs⟩
      have hent := networkStatusLoop_entries lib nets sr.Resources
      rw [hp] at h hent
      cases e2 with
      | some e => simp at h
      | none =>
        obtain ⟨new, hnew, hall⟩ := hent rfl
        simp only at hnew
        exact ⟨nets, new, rfl, by simp [hnew], fun hn => absurd hn hne, fun _ => hall⟩

theorem resourceContainerStatus_entry {σ : Type} (lib : Lib) (cli : Client σ)
    (container : Resource_Container) (sr : StatusResponse) (w : World σ) :
    ∃ c, (resourceContainerStatus lib cli container sr w).2.1.Resources = sr.Resources ++ [c] ∧
      c.CategoryDisplayHint = .INSTANCE := by
  unfold resourceContainerStatus
  simp only [World.call, World.emit]
  repeat' split
  all_goals exact ⟨_, rfl, rfl⟩

theorem StatusReport_entries {σ : Type} (lib : Lib) (cli : Client σ) (rm : Manager)
    (w : World σ) (report : StatusReport) (h : (rm.StatusReport lib cli w).1 = .ok report) :
    ∃ nets netRecs c, (cli.NetworkList w.eng ("use=" ++ rm.network.Name)).1 = .ok nets ∧
      report.Resources = netRecs ++ [c] ∧
      (nets = [] → netRecs =
        [{ Name := rm.network.Name, CategoryDisplayHint := .ROUTER, Health := .MISSING }]) ∧
      (nets ≠ [] → List.Forall₂ (fun n r => lib.marshalNetwork n = .ok r.StateJson ∧
        r = { Name := n.Name, Id := n.ID, CategoryDisplayHint := .ROUTER, Health := .READY,
              HealthMessage := "exists", StateJson := r.StateJson,
              CreatedTime := some n.Created }) nets netRecs) ∧
      c.CategoryDisplayHint = .INSTANCE ∧
      ∃ w1, (resourceContainerStatus lib cli rm.container { Resources := netRecs } w1).1 = none ∧
        (resourceContainerStatus lib cli rm.container { Resources := netRecs }
          w1).2.1.Resources = netRecs ++ [c] := by
  unfold Manager.StatusReport at h
  have hn := resourceNetworkStatus_entries lib cli rm.network {} w
  rcases hnet : resourceNetworkStatus lib cli rm.network {} w with ⟨e1, sr1, n1, w1⟩
  rw [hnet] at h hn
  cases e1 with
  | some err => simp at h
  | none =>
    obtain ⟨nets, netRecs, hl, hrecs, hnone, hsome⟩ := hn rfl
    simp only [List.nil_append] at hrecs
    have hsr : sr1 = { Resources := netRecs } := by
      cases sr1
      simp only at hrecs
      rw [hrecs]
    subst hsr
    obtain ⟨c, hc, hhint⟩ := resourceContainerStatus_entry lib cli rm.container
      { Resources := netRecs } w1
    rcases hcon : resourceContainerStatus lib cli rm.container { Resources := netRecs } w1
      with ⟨e2, sr2, c2, w2⟩
    rw [hcon] at hc
    simp only [hcon] at h
    cases e2 with
    | some err => simp at h
    | none =>
      simp only [Except.ok.injEq] at h
      subst h
      simp only at hc
      exact ⟨nets, netRecs, c, hl, hc, hnone, hsome, hhint, w1, by rw [hcon], by rw [hcon]; exact hc⟩

/-- C10, as amended: for a deployment with no stored resource state, `Status`
sets the network state to the name "waypoint" and the container state to the
deployment's container id before reporting.  A report it returns is the one
the manager builds from the two status hooks on those states.  Its entries are
the network entries followed by one entry for the container: when the engine
lists no network under the label "use=waypoint", the one network entry is the
record named "waypoint" with health MISSING; otherwise there is one READY
record per listed network, in order, with the name, id, creation time and
marshalled state of that network; the last entry is the record the container
status hook appends for the container state, with the display hint INSTANCE.
So the report holds exactly two entries if and only if the engine lists at
most one such network. -/
theorem Status_legacy_restore {σ : Type} (lib : Lib) (cli : Client σ) (p : PlatformConfig)
    (d : Deployment) (w : World σ) (hd : d.ResourceState = none) :
    restoreState {} d = .ok (legacyManager d) ∧
    ∀ report, (Status lib cli p d w).1 = .ok report →
      (Status lib cli p d w).2.1 = legacyManager d ∧
      ∃ w0 nets, ((legacyManager d).StatusReport lib cli w0).1 = .ok report ∧
        (cli.NetworkList w0.eng "use=waypoint").1 = .ok nets ∧
        report.Resources.length = max 1 nets.length + 1 ∧
        (report.Resources.length = 2 ↔ nets.length ≤ 1) ∧
        ∃ netRecs c, report.Resources = netRecs ++ [c] ∧
          (nets = [] → netRecs =
            [{ Name := "waypoint", CategoryDisplayHint := .ROUTER, Health := .MISSING }]) ∧
          (nets ≠ [] → List.Forall₂ (fun n r => lib.marshalNetwork n = .ok r.StateJson ∧
            r = { Name := n.Name, Id := n.ID, CategoryDisplayHint := .ROUTER,
                  Health := .READY, HealthMessage := "exists", StateJson := r.StateJson,
                  CreatedTime := some n.Created }) nets netRecs) ∧
          c.CategoryDisplayHint = .INSTANCE ∧
          ∃ w1, (resourceContainerStatus lib cli { Id := d.Container }
              { Resources := netRecs } w1).1 = none ∧
            (resourceContainerStatus lib cli { Id := d.Container }
              { Resources := netRecs } w1).2.1.Resources = netRecs ++ [c] := by
  have hr := restoreState_legacy d hd
  refine ⟨hr, ?_⟩
  intro report h
  unfold Status at h ⊢
  rcases hg : getDockerClient lib cli p w with ⟨e, w1⟩
  rw [hg] at h
  cases e with
  | some err => simp at h
  | none =>
    simp only [hr] at h ⊢
    generalize hw0 : (((w1.call Call.NegotiateAPIVersion
      (fun e => ((), cli.NegotiateAPIVersion e))).2.emit UiEvent.StepGroup).emit
        (UiEvent.Add "Gathering health report for Docker platform...")) = w0 at h ⊢
    have hm := StatusReport_manager lib cli (legacyManager d) w0
    have hent := StatusReport_entries lib cli (legacyManager d) w0
    rcases hs : (legacyManager d).StatusReport lib cli w0 with ⟨r, rm, w2⟩
    rw [hs] at hm h hent
    simp only at hm
    subst hm
    cases r with
    | error err => simp at h
    | ok rep =>
      simp only [Except.ok.injEq] at h
      subst h
      refine ⟨rfl, w0, ?_⟩
      obtain ⟨nets, netRecs, c, hl, hres, hnone, hsome, hhint, hhook⟩ := hent rep rfl
      have hlen : netRecs.length = max 1 nets.length := by
        by_cases hn : nets = []
        · rw [hnone hn, hn]
          rfl
        · rw [← (hsome hn).length_eq]
          have : 0 < nets.length := List.length_pos.mpr hn
          omega
      have hlen2 : rep.Resources.length = max 1 nets.length + 1 := by
        rw [hres, List.length_append, hlen]
        rfl
      refine ⟨nets, by rw [hs], hl, hlen2, ?_, netRecs, c, hres, hnone, hsome, hhint, hhook⟩
      rw [hlen2]
      omega

/-- Witness of C10 as amended: for the legacy deployment with container id
"c1" the states are restored; on an engine that lists one network the report
holds two entries; on an engine that lists none it holds two entries, the
first being the MISSING record named "waypoint". -/
theorem Status_legacy_restore_witness :
    legacyDeployment.ResourceState = none ∧
    restoreState {} legacyDeployment =
      .ok { network := { Name := "waypoint" }, container := { Id := "c1" } } ∧
    (∃ report, (Status sampleLib (scriptedClient (twoNetworks.take 1) (.ok runningInfo) none)
        plainConfig legacyDeployment emptyWorld).1 = .ok report ∧
      report.Resources.length = 2) ∧
    ∃ report c, (Status sampleLib (scriptedClient [] (.ok runningInfo) none)
        plainConfig legacyDeployment emptyWorld).1 = .ok report ∧
      report.Resources =
        [{ Name := "waypoint", CategoryDisplayHint := .ROUTER, Health := .MISSING }, c] ∧
      c.CategoryDisplayHint = .INSTANCE := by
  have h := Status_legacy_restore sampleLib
    (scriptedClient (twoNetworks.take 1) (.ok runningInfo) none) plainConfig legacyDeployment
    emptyWorld rfl
  have h0 := Status_legacy_restore sampleLib
    (scriptedClient [] (.ok runningInfo) none) plainConfig legacyDeployment emptyWorld rfl
  refine ⟨rfl, h.1, ⟨_, rfl, ?_⟩, ?_⟩
  · obtain ⟨_, w0, nets, _, hl, _, hiff, _⟩ := h.2 _ rfl
    have hn : nets = (twoNetworks.take 1) := by
      simp only [scriptedClient, Except.ok.injEq] at hl
      exact hl.symm
    exact hiff.mpr (by rw [hn]; decide)
  · obtain ⟨_, w0, nets, _, hl, _, _, netRecs, c, hres, hnone, _, hhint, _⟩ := h0.2 _ rfl
    have hn : nets = [] := by
      simp only [scriptedClient, Except.ok.injEq] at hl
      exact hl.symm
    refine ⟨_, c, rfl, ?_, hhint⟩
    rw [hres, hnone hn]
    rfl

/-! ## Container status: restarting and OOM-killed containers -/

/-- Counterexample to C11 as stated: a container without health check that
the engine reports running and restarting with exit code 0 is reported READY,
not ALIVE. -/
theorem resourceContainerStatus_clean_restart_ready :
    restartingCleanInfo.State.Health = none ∧ restartingCleanInfo.State.Restarting = true ∧
    (resourceContainerStatus sampleLib (scriptedClient [] (.ok restartingCleanInfo) none)
      sampleContainer {} emptyWorld).1 = none ∧
    (resourceContainerStatus sampleLib (scriptedClient [] (.ok restartingCleanInfo) none)
      sampleContainer {} emptyWorld).2.1.Resources.map (fun r => r.Health) = [Health.READY] ∧
    (resourceContainerStatus sampleLib (scriptedClient [] (.ok restartingCleanInfo) none)
      sampleContainer {} emptyWorld).2.1.Resources.map (fun r => r.Health) ≠ [Health.ALIVE] :=
  ⟨rfl, rfl, rfl, rfl, by decide⟩

/-- C11, as amended: in `resourceContainerStatus`, a container that was
inspected, has no health-check object, has restarting=true and is not running
with exit code 0 is reported with health ALIVE. -/
theorem resourceContainerStatus_restarting {σ : Type} (lib : Lib) (cli : Client σ)
    (container : Resource_Container) (sr : StatusResponse) (w : World σ)
    (info : ContainerJSON) (t : Timestamp) (js : String)
    (hi : (cli.ContainerInspect w.eng container.Id).1 = .ok info)
    (ht : lib.timeParse info.Created = .ok t)
    (hm : lib.marshalContainer (containerStateDoc info) = .ok js)
    (hh : info.State.Health = none) (hr : info.State.Restarting = true)
    (hnr : ¬(info.State.Running = true ∧ info.State.ExitCode = 0)) :
    (resourceContainerStatus lib cli container sr w).1 = none ∧
    ∃ r, (resourceContainerStatus lib cli container sr w).2.1.Resources = sr.Resources ++ [r] ∧
      r.Health = Health.ALIVE := by
  obtain ⟨h1, h2⟩ := status_inspected lib cli container sr w info t js hi ht hm
  refine ⟨h1, _, h2, ?_⟩
  show (containerHealth info.State).1 = Health.ALIVE
  rw [containerHealth_noCheck info.State hh, if_neg hnr, if_pos (Or.inl hr)]

/-- Witness of C11 as amended: the container restarting after an OOM kill is
reported ALIVE. -/
theorem resourceContainerStatus_restarting_witness :
    oomRestartingInfo.State.Restarting = true ∧
    (resourceContainerStatus sampleLib (scriptedClient [] (.ok oomRestartingInfo) none)
      sampleContainer {} emptyWorld).1 = none ∧
    ∃ r, (resourceContainerStatus sampleLib (scriptedClient [] (.ok oomRestartingInfo) none)
        sampleContainer {} emptyWorld).2.1.Resources = [] ++ [r] ∧ r.Health = Health.ALIVE :=
  ⟨rfl, resourceContainerStatus_restarting sampleLib
    (scriptedClient [] (.ok oomRestartingInfo) none) sampleContainer {} emptyWorld
    oomRestartingInfo 0 "id=c1 env=" rfl rfl rfl rfl rfl (by decide)⟩

/-- Counterexample to C12 as stated: a container without health check that is
OOM-killed and restarting is reported ALIVE, not DOWN. -/
theorem resourceContainerStatus_oom_alive :
    oomRestartingInfo.State.Health = none ∧ oomRestartingInfo.State.OOMKilled = true ∧
    (resourceContainerStatus sampleLib (scriptedClient [] (.ok oomRestartingInfo) none)
      sampleContainer {} emptyWorld).1 = none ∧
    (resourceContainerStatus sampleLib (scriptedClient [] (.ok oomRestartingInfo) none)
      sampleContainer {} emptyWorld).2.1.Resources.map (fun r => r.Health) = [Health.ALIVE] ∧
    (resourceContainerStatus sampleLib (scriptedClient [] (.ok oomRestartingInfo) none)
      sampleContainer {} emptyWorld).2.1.Resources.map (fun r => r.Health) ≠ [Health.DOWN] :=
  ⟨rfl, rfl, rfl, rfl, by decide⟩

/-- C12, as amended: in `resourceContainerStatus`, a container that was
inspected, has no health-check object, has OOMKilled=true, is not running with
exit code 0, is not restarting and does not have status "created" is reported
with health DOWN. -/
theorem resourceContainerStatus_oom_killed {σ : Type} (lib : Lib) (cli : Client σ)
    (container : Resource_Container) (sr : StatusResponse) (w : World σ)
    (info : ContainerJSON) (t : Timestamp) (js : String)
    (hi : (cli.ContainerInspect w.eng container.Id).1 = .ok info)
    (ht : lib.timeParse info.Created = .ok t)
    (hm : lib.marshalContainer (containerStateDoc info) = .ok js)
    (hh : info.State.Health = none) (ho : info.State.OOMKilled = true)
    (hnr : ¬(info.State.Running = true ∧ info.State.ExitCode = 0))
    (hns : ¬(info.State.Restarting = true ∨ info.State.Status = "created")) :
    (resourceContainerStatus lib cli container sr w).1 = none ∧
    ∃ r, (resourceContainerStatus lib cli container sr w).2.1.Resources = sr.Resources ++ [r] ∧
      r.Health = Health.DOWN := by
  obtain ⟨h1, h2⟩ := status_inspected lib cli container sr w info t js hi ht hm
  refine ⟨h1, _, h2, ?_⟩
  show (containerHealth info.State).1 = Health.DOWN
  rw [containerHealth_noCheck info.State hh, if_neg hnr, if_neg hns,
    if_pos (Or.inr (Or.inl ho))]

/-- Witness of C12 as amended: the container stopped by an OOM kill is
reported DOWN. -/
theorem resourceContainerStatus_oom_killed_witness :
    oomExitedInfo.State.OOMKilled = true ∧
    (resourceContainerStatus sampleLib (scriptedClient [] (.ok oomExitedInfo) none)
      sampleContainer {} emptyWorld).1 = none ∧
    ∃ r, (resourceContainerStatus sampleLib (scriptedClient [] (.ok oomExitedInfo) none)
        sampleContainer {} emptyWorld).2.1.Resources = [] ++ [r] ∧ r.Health = Health.DOWN :=
  ⟨rfl, resourceContainerStatus_oom_killed sampleLib
    (scriptedClient [] (.ok oomExitedInfo) none) sampleContainer {} emptyWorld
    oomExitedInfo 0 "id=c1 env=" rfl rfl rfl rfl rfl (by decide) (by decide)⟩

/-! ## Published ports: the documented example, and what is rejected -/

/-- C13: the example of `config.go` for `published_ports`, with its space
after the comma, is accepted by `parsePublishPorts`, but the second entry
keeps the space in its container port: it is " 8080", not "8080". -/
theorem parsePublishPorts_documented_example :
    parsePublishPorts "3000:3001/tcp, 8080:80" =
      .ok [⟨"3000", "3001", "tcp"⟩, ⟨" 8080", "80", "tcp"⟩] ∧
    parsePublishPorts "3000:3001/tcp, 8080:80" ≠
      .ok [⟨"3000", "3001", "tcp"⟩, ⟨"8080", "80", "tcp"⟩] := by
  have h : parsePublishPorts "3000:3001/tcp, 8080:80" =
      .ok [⟨"3000", "3001", "tcp"⟩, ⟨" 8080", "80", "tcp"⟩] := rfl
  refine ⟨h, ?_⟩
  rw [h]
  simp only [ne_eq, Except.ok.injEq]
  decide

theorem parseProtoField_error_count (v : String) (e : Err) (h : parseProtoField v = .error e) :
    2 ≤ v.data.count '/' := by
  have hl := strSplit_length v '/'
  unfold parseProtoField at h
  match hs : strSplit v '/' with
  | [] => rw [hs] at hl; simp at hl
  | [_] => rw [hs] at h; cases h
  | [_, _] => rw [hs] at h; cases h
  | _ :: _ :: _ :: _ => rw [hs] at hl; simp at hl; omega

theorem parsePublishPortField_error_parts (entry : String) (e : Err)
    (h : parsePublishPortField entry = .error e) :
    3 ≤ (strSplit entry ':').length ∨
      ((strSplit entry ':').length ≤ 2 ∧ 2 ≤ (portProtoSegment entry).data.count '/') := by
  have hne : strSplit entry ':' ≠ [] := by
    intro h0
    have hl := strSplit_length entry ':'
    rw [h0] at hl
    simp at hl
  unfold parsePublishPortField at h
  unfold portProtoSegment
  match hs : strSplit entry ':' with
  | [] => exact absurd hs hne
  | [t0] =>
    rw [hs] at h
    right
    cases hp : parseProtoField t0 with
    | error e2 => exact ⟨by simp, by simpa using parseProtoField_error_count t0 e2 hp⟩
    | ok r => simp [hp] at h
  | [t0, t1] =>
    rw [hs] at h
    right
    cases hp : parseProtoField t1 with
    | error e2 => exact ⟨by simp, by simpa using parseProtoField_error_count t1 e2 hp⟩
    | ok r => simp [hp] at h
  | _ :: _ :: _ :: _ => left; simp

theorem parsePublishPortsLoop_error_entry (ts : List String) (pfs : List portField) (e : Err)
    (h : parsePublishPortsLoop ts pfs = .error e) :
    ∃ t ∈ ts, ∃ e2, parsePublishPortField t = .error e2 := by
  induction ts generalizing pfs with
  | nil => simp [parsePublishPortsLoop] at h
  | cons t ts ih =>
    unfold parsePublishPortsLoop at h
    cases hp : parsePublishPortField t with
    | error e2 => exact ⟨t, by simp, e2, hp⟩
    | ok pf =>
      rw [hp] at h
      obtain ⟨t2, ht2, e2, he2⟩ := ih _ h
      exact ⟨t2, by simp [ht2], e2, he2⟩

theorem parsePublishPortsLoop_fields (ts : List String) (pfs out : List portField)
    (h : parsePublishPortsLoop ts pfs = .ok out) :
    ∃ new, out = pfs ++ new ∧
      List.Forall₂ (fun t pf => parsePublishPortField t = .ok pf) ts new := by
  induction ts generalizing pfs with
  | nil =>
    simp only [parsePublishPortsLoop, Except.ok.injEq] at h
    exact ⟨[], by simp [h], List.Forall₂.nil⟩
  | cons t ts ih =>
    unfold parsePublishPortsLoop at h
    cases hp : parsePublishPortField t with
    | error e2 => rw [hp] at h; cases h
    | ok pf =>
      rw [hp] at h
      obtain ⟨new, hout, hall⟩ := ih _ h
      exact ⟨pf :: new, by simp [hout], List.Forall₂.cons hp hall⟩

theorem string_length_eq_zero (s : String) : s.length = 0 ↔ s = "" := by
  constructor
  · intro h
    have hd : s.data = [] := List.length_eq_zero.mp h
    show String.mk s.data = ""
    rw [hd]
  · rintro rfl
    rfl

/-- C16: `parsePublishPorts` fails exactly on the colon and slash counts.  For
every input it returns an error if and only if the input is not empty and some
comma-separated entry splits on the colon into three or more parts, or into
one or two parts of which the last holds two or more slashes.  On success for
a non-empty input the result has one field per comma-separated entry, in
order, each the parse of its entry; the empty input gives the empty list; and
it accepts "," (two empty entries), "a:b", "80/" and "80/udp:90", the last with
container port "80/udp", host port "90" and protocol "tcp". -/
theorem parsePublishPorts_error_iff (s : String) :
    ((∃ e, parsePublishPorts s = .error e) ↔
      (s ≠ "" ∧ ∃ entry ∈ strSplit s ',',
        3 ≤ (strSplit entry ':').length ∨
          ((strSplit entry ':').length ≤ 2 ∧
            2 ≤ (portProtoSegment entry).data.count '/'))) ∧
    (∀ pfs, parsePublishPorts s = .ok pfs → s ≠ "" →
      pfs.length = (strSplit s ',').length ∧
      List.Forall₂ (fun t pf => parsePublishPortField t = .ok pf) (strSplit s ',') pfs) ∧
    parsePublishPorts "" = .ok [] ∧
    parsePublishPorts "," = .ok [⟨"", "", "tcp"⟩, ⟨"", "", "tcp"⟩] ∧
    parsePublishPorts "a:b" = .ok [⟨"a", "b", "tcp"⟩] ∧
    parsePublishPorts "80/" = .ok [⟨"80", "", ""⟩] ∧
    parsePublishPorts "80/udp:90" = .ok [⟨"80/udp", "90", "tcp"⟩] := by
  refine ⟨⟨?_, ?_⟩, ?_, rfl, rfl, rfl, rfl, rfl⟩
  · rintro ⟨e, he⟩
    unfold parsePublishPorts at he
    by_cases h0 : s.length = 0
    · rw [if_pos h0] at he
      cases he
    · rw [if_neg h0] at he
      obtain ⟨t, ht, e2, he2⟩ := parsePublishPortsLoop_error_entry _ _ _ he
      exact ⟨fun hs => h0 ((string_length_eq_zero s).mpr hs), t, ht,
        parsePublishPortField_error_parts t e2 he2⟩
  · rintro ⟨hs, entry, hmem, hbad⟩
    have h0 : s.length ≠ 0 := fun h => hs ((string_length_eq_zero s).mp h)
    have hmal : malformedEntry entry := by
      rcases hbad with h3 | ⟨_, h2⟩
      · left
        rw [strSplit_length] at h3
        omega
      · exact Or.inr h2
    obtain ⟨e, he⟩ := parsePublishPortField_error entry hmal
    unfold parsePublishPorts
    rw [if_neg h0]
    exact parsePublishPortsLoop_error _ entry e hmem he []
  · intro pfs hok hs
    have h0 : s.length ≠ 0 := fun h => hs ((string_length_eq_zero s).mp h)
    unfold parsePublishPorts at hok
    rw [if_neg h0] at hok
    obtain ⟨new, hout, hall⟩ := parsePublishPortsLoop_fields _ _ _ hok
    simp only [List.nil_append] at hout
    subst hout
    exact ⟨hall.length_eq.symm, hall⟩

/-- Witness of C16: "80/udp:90,1:2:3" is rejected for its second entry, and
the one field of "80/udp:90" is the parse of its one entry. -/
theorem parsePublishPorts_error_iff_witness :
    (∃ e, parsePublishPorts "80/udp:90,1:2:3" = .error e) ∧
    [(⟨"80/udp", "90", "tcp"⟩ : portField)].length = (strSplit "80/udp:90" ',').length ∧
    List.Forall₂ (fun t pf => parsePublishPortField t = .ok pf) (strSplit "80/udp:90" ',')
      [⟨"80/udp", "90", "tcp"⟩] :=
  ⟨(parsePublishPorts_error_iff "80/udp:90,1:2:3").1.mpr
      ⟨by decide, "1:2:3", by decide, Or.inl (by decide)⟩,
    (parsePublishPorts_error_iff "80/udp:90").2.1 _ rfl (by decide)⟩

/-! ## The port maps of the create hook -/

theorem servicePortLoop_other (lib : Lib) (ports : List Nat) (e e2 : List (String × Unit))
    (b b2 : List (String × List PortBinding)) (k : String)
    (h : servicePortLoop lib ports e b = .ok (e2, b2))
    (hk : ∀ port ∈ ports, lib.newPort "tcp" (toString port) ≠ .ok k) :
    GoMap.get e2 k = GoMap.get e k ∧ GoMap.get b2 k = GoMap.get b k := by
  induction ports generalizing e b with
  | nil =>
    simp only [servicePortLoop, Except.ok.injEq, Prod.mk.injEq] at h
    rw [h.1, h.2]
    exact ⟨rfl, rfl⟩
  | cons port ports ih =>
    unfold servicePortLoop at h
    cases hp : lib.newPort "tcp" (toString port) with
    | error err => rw [hp] at h; cases h
    | ok np =>
      rw [hp] at h
      have hne : k ≠ np := by
        intro hkn
        exact hk port (by simp) (by rw [hp, hkn])
      obtain ⟨h1, h2⟩ := ih _ _ h (fun q hq => hk q (by simp [hq]))
      rw [h1, h2, GoMap_get_set_other _ _ _ _ hne, GoMap_get_set_other _ _ _ _ hne]
      exact ⟨rfl, rfl⟩

theorem servicePortLoop_port (lib : Lib) (ports : List Nat) (e e2 : List (String × Unit))
    (b b2 : List (String × List PortBinding)) (k : String) (port : Nat)
    (h : servicePortLoop lib ports e b = .ok (e2, b2)) (hmem : port ∈ ports)
    (hk : lib.newPort "tcp" (toString port) = .ok k) :
    GoMap.get e2 k = some () ∧ GoMap.get b2 k = some [{ HostPort := "" }] := by
  induction ports generalizing e b port with
  | nil => simp at hmem
  | cons q ports ih =>
    unfold servicePortLoop at h
    cases hp : lib.newPort "tcp" (toString q) with
    | error err => rw [hp] at h; cases h
    | ok np =>
      rw [hp] at h
      by_cases hlater : ∃ r ∈ ports, lib.newPort "tcp" (toString r) = .ok k
      · obtain ⟨r, hr, hrk⟩ := hlater
        exact ih _ _ r h hr hrk
      · have hq : port = q := by
          rcases List.mem_cons.mp hmem with h1 | h1
          · exact h1
          · exact absurd ⟨port, h1, hk⟩ hlater
        subst hq
        rw [hp] at hk
        simp only [Except.ok.injEq] at hk
        subst hk
        obtain ⟨h1, h2⟩ := servicePortLoop_other lib ports _ e2 _ b2 np h
          (fun r hr hrk => hlater ⟨r, hr, hrk⟩)
        rw [h1, h2, GoMap_get_set_self, GoMap_get_set_self]
        exact ⟨rfl, rfl⟩

theorem publishLoop_other (lib : Lib) (pfs : List portField) (e e2 : List (String × Unit))
    (b b2 : List (String × List PortBinding)) (k : String)
    (h : publishLoop lib pfs e b = .ok (e2, b2))
    (hk : ∀ pf ∈ pfs, lib.newPort pf.Proto pf.ContainerPort ≠ .ok k) :
    GoMap.get e2 k = GoMap.get e k ∧ GoMap.get b2 k = GoMap.get b k := by
  induction pfs generalizing e b with
  | nil =>
    simp only [publishLoop, Except.ok.injEq, Prod.mk.injEq] at h
    rw [h.1, h.2]
    exact ⟨rfl, rfl⟩
  | cons pf pfs ih =>
    unfold publishLoop at h
    cases hp : lib.newPort pf.Proto pf.ContainerPort with
    | error err => rw [hp] at h; cases h
    | ok np =>
      rw [hp] at h
      have hne : k ≠ np := by
        intro hkn
        exact hk pf (by simp) (by rw [hp, hkn])
      obtain ⟨h1, h2⟩ := ih _ _ h (fun q hq => hk q (by simp [hq]))
      rw [h1, h2, GoMap_get_set_other _ _ _ _ hne, GoMap_get_set_other _ _ _ _ hne]
      exact ⟨rfl, rfl⟩

theorem publishLoop_last (lib : Lib) (pre post : List portField) (pf : portField)
    (e e2 : List (String × Unit)) (b b2 : List (String × List PortBinding)) (k : String)
    (h : publishLoop lib (pre ++ pf :: post) e b = .ok (e2, b2))
    (hk : lib.newPort pf.Proto pf.ContainerPort = .ok k)
    (hpost : ∀ q ∈ post, lib.newPort q.Proto q.ContainerPort ≠ .ok k) :
    GoMap.get e2 k = some () ∧ GoMap.get b2 k = some [{ HostPort := pf.HostPort }] := by
  induction pre generalizing e b with
  | nil =>
    simp only [List.nil_append] at h
    unfold publishLoop at h
    rw [hk] at h
    obtain ⟨h1, h2⟩ := publishLoop_other lib post _ e2 _ b2 k h hpost
    rw [h1, h2, GoMap_get_set_self, GoMap_get_set_self]
    exact ⟨rfl, rfl⟩
  | cons q pre ih =>
    simp only [List.cons_append] at h
    unfold publishLoop at h
    cases hp : lib.newPort q.Proto q.ContainerPort with
    | error err => rw [hp] at h; cases h
    | ok np =>
      rw [hp] at h
      exact ih _ _ h

theorem publishLoop_exposed (lib : Lib) (pfs : List portField) (e e2 : List (String × Unit))
    (b b2 : List (String × List PortBinding)) (k : String)
    (h : publishLoop lib pfs e b = .ok (e2, b2)) (hk : GoMap.get e k = some ()) :
    GoMap.get e2 k = some () := by
  induction pfs generalizing e b with
  | nil =>
    simp only [publishLoop, Except.ok.injEq, Prod.mk.injEq] at h
    rw [← h.1]
    exact hk
  | cons pf pfs ih =>
    unfold publishLoop at h
    cases hp : lib.newPort pf.Proto pf.ContainerPort with
    | error err => rw [hp] at h; cases h
    | ok np =>
      rw [hp] at h
      apply ih _ _ h
      by_cases hkn : k = np
      · rw [hkn, GoMap_get_set_self]
      · rw [GoMap_get_set_other _ _ _ _ hkn]
        exact hk

/-- What `buildCreateArgs` returns when it succeeds: the published fields,
the maps after the loop over them, and the maps after the loop over the extra
ports and the service port, which are the port maps of the arguments. -/
theorem buildCreateArgs_ports (lib : Lib) (p p2 : PlatformConfig) (src : Source) (img : Image)
    (job : JobInfo) (deployConfig : DeploymentConfig) (result : Deployment)
    (netState : Resource_Network) (args : ContainerCreateArgs)
    (h : buildCreateArgs lib p src img job deployConfig result netState = .ok (p2, args)) :
    ∃ pfs e1 b1, parsePublishPorts p.PublishedPorts = .ok pfs ∧
      publishLoop lib pfs [] [] = .ok (e1, b1) ∧
      servicePortLoop lib (p.ExtraPorts ++ [p.ServicePort]) e1 b1 =
        .ok (args.config.ExposedPorts, args.hostConfig.PortBindings) ∧
      args.config.Env.head? = some ("PORT=" ++ toString p.ServicePort) := by
  unfold buildCreateArgs at h
  split at h
  · cases h
  next pfs hpfs =>
  split at h
  · cases h
  next e1 b1 hpub =>
  split at h
  · cases h
  next e2 b2 hsvc =>
  split at h
  · cases h
  simp only [Except.ok.injEq, Prod.mk.injEq] at h
  obtain ⟨_, h2⟩ := h
  subst h2
  exact ⟨pfs, e1, b1, hpfs, hpub, hsvc, rfl⟩

theorem buildCreateArgs_config (lib : Lib) (p p2 : PlatformConfig) (src : Source) (img : Image)
    (job : JobInfo) (deployConfig : DeploymentConfig) (result : Deployment)
    (netState : Resource_Network) (args : ContainerCreateArgs)
    (h : buildCreateArgs lib p src img job deployConfig result netState = .ok (p2, args)) :
    p2.ServicePort = p.ServicePort := by
  unfold buildCreateArgs at h
  split at h
  · cases h
  split at h
  · cases h
  split at h
  · cases h
  split at h
  · cases h
  simp only [Except.ok.injEq, Prod.mk.injEq] at h
  obtain ⟨h1, _⟩ := h
  subst h1
  rfl

/-- Every `ContainerCreate` call that `resourceContainerCreate` issues carries
the arguments `buildCreateArgs` built. -/
theorem resourceContainerCreate_calls_args {σ : Type} (lib : Lib) (cli : Client σ)
    (p : PlatformConfig) (src : Source) (img : Image) (job : JobInfo)
    (deployConfig : DeploymentConfig) (result : Deployment) (state : Resource_Container)
    (netState : Resource_Network) (w : World σ) (a : ContainerCreateArgs)
    (h : Call.ContainerCreate a ∈
      (resourceContainerCreate lib cli p src img job deployConfig result state netState w).2.2.2.calls) :
    Call.ContainerCreate a ∈ w.calls ∨
      ∃ p2, buildCreateArgs lib p src img job deployConfig result netState = .ok (p2, a) := by
  unfold resourceContainerCreate at h
  have h1 := pullImage_calls lib cli img p.ForcePull w a
  rcases hpull : pullImage lib cli img p.ForcePull w with ⟨e, w1⟩
  rw [hpull] at h h1
  cases e with
  | some err => exact Or.inl (h1 h)
  | none =>
    cases hb : buildCreateArgs lib p src img job deployConfig result netState with
    | error err =>
      rw [hb] at h
      exact Or.inl (h1 (by simpa [World.emit] using h))
    | ok pa =>
      obtain ⟨p2, args⟩ := pa
      rw [hb] at h
      simp only [World.call] at h
      have key : Call.ContainerCreate a ∈ w1.calls ++ [Call.ContainerCreate args] →
          Call.ContainerCreate a ∈ w.calls ∨ ∃ p3,
            (Except.ok (p2, args) : Except Err (PlatformConfig × ContainerCreateArgs))
              = Except.ok (p3, a) := by
        intro hm
        simp only [List.mem_append, List.mem_singleton] at hm
        rcases hm with hm | hm
        · exact Or.inl (h1 hm)
        · right
          cases hm
          exact ⟨p2, rfl⟩
      split at h
      · exact key (by simpa [World.emit] using h)
      · have hc := connectAndStart_calls cli p2 "Creating new container..." _ _ a
          (by simpa [World.emit] using h)
        exact key (by simpa [World.emit] using hc)

theorem connectLoop_mono {σ : Type} (cli : Client σ) (id : String) (nets : List String)
    (w : World σ) (c : Call) (h : c ∈ w.calls) : c ∈ (connectLoop cli id nets w).2.calls := by
  induction nets generalizing w with
  | nil => simpa [connectLoop] using h
  | cons n nets ih =>
    unfold connectLoop
    simp only [World.call]
    split
    · simp [h]
    · exact ih _ (by simp [h])

theorem connectAndStart_mono {σ : Type} (cli : Client σ) (p : PlatformConfig) (step id : String)
    (w : World σ) (c : Call) (h : c ∈ w.calls) :
    c ∈ (connectAndStart cli p step id w).2.calls := by
  unfold connectAndStart
  cases hn : p.Networks with
  | none =>
    simp only [World.call, World.emit]
    split <;> simp [h]
  | some nets =>
    simp only
    have hc := connectLoop_mono cli id nets
      (w.emit (.Update step "Connecting additional networks to container...")) c
      (by simpa [World.emit] using h)
    rcases hl : connectLoop cli id nets
      (w.emit (.Update step "Connecting additional networks to container...")) with ⟨e, w2⟩
    rw [hl] at hc
    cases e with
    | some err => simpa [World.emit] using hc
    | none =>
      simp only [World.call, World.emit]
      simp only at hc
      split <;> simp [hc]

/-- What `resourceContainerCreate` leaves behind when it returns no error:
the arguments were built and the `ContainerCreate` call with them was issued. -/
theorem resourceContainerCreate_success {σ : Type} (lib : Lib) (cli : Client σ)
    (p : PlatformConfig) (src : Source) (img : Image) (job : JobInfo)
    (deployConfig : DeploymentConfig) (result : Deployment) (state : Resource_Container)
    (netState : Resource_Network) (w : World σ)
    (h : (resourceContainerCreate lib cli p src img job deployConfig result state netState w).1
      = none) :
    ∃ p2 a, buildCreateArgs lib p src img job deployConfig result netState = .ok (p2, a) ∧
      Call.ContainerCreate a ∈
        (resourceContainerCreate lib cli p src img job deployConfig result state netState
          w).2.2.2.calls := by
  unfold resourceContainerCreate at h ⊢
  rcases hpull : pullImage lib cli img p.ForcePull w with ⟨e, w1⟩
  rw [hpull] at h
  cases e with
  | some err => simp at h
  | none =>
    cases hb : buildCreateArgs lib p src img job deployConfig result netState with
    | error err => simp [hb] at h
    | ok pa =>
      obtain ⟨p2, args⟩ := pa
      refine ⟨p2, args, rfl, ?_⟩
      simp only [hb, World.call] at h ⊢
      cases hc : (cli.ContainerCreate (w1.emit (.Add "Creating new container...")).eng args).1 with
      | error err => simp [hc] at h
      | ok id =>
        simp only [World.emit, List.mem_append, List.mem_singleton, List.not_mem_nil]
        exact connectAndStart_mono cli p2 _ id _ _ (by simp)

/-- C15: in the port map that `resourceContainerCreate` builds, the service
port and the extra ports take precedence over the published ports.  When the
arguments of `ContainerCreate` are built, they are the arguments of every
`ContainerCreate` call of the hook, and in their port bindings: the port of
the service port and of every extra port is bound to one binding with an empty
host port, whatever the published entries say about it; and every other port
named by a published entry is bound to the host port of the last published
entry that names it. -/
theorem buildCreateArgs_port_precedence {σ : Type} (lib : Lib) (cli : Client σ)
    (p p2 : PlatformConfig) (src : Source) (img : Image) (job : JobInfo)
    (deployConfig : DeploymentConfig) (result : Deployment) (state : Resource_Container)
    (netState : Resource_Network) (w : World σ) (args : ContainerCreateArgs)
    (h : buildCreateArgs lib p src img job deployConfig result netState = .ok (p2, args)) :
    (∀ a, Call.ContainerCreate a ∈ (resourceContainerCreate lib cli p src img job deployConfig
        result state netState w).2.2.2.calls → Call.ContainerCreate a ∈ w.calls ∨ a = args) ∧
    ∃ pfs, parsePublishPorts p.PublishedPorts = .ok pfs ∧
      (∀ port ∈ p.ExtraPorts ++ [p.ServicePort], ∀ k,
        lib.newPort "tcp" (toString port) = .ok k →
        GoMap.get args.hostConfig.PortBindings k = some [{ HostPort := "" }]) ∧
      (∀ pre pf post k, pfs = pre ++ pf :: post →
        lib.newPort pf.Proto pf.ContainerPort = .ok k →
        (∀ q ∈ post, lib.newPort q.Proto q.ContainerPort ≠ .ok k) →
        (∀ port ∈ p.ExtraPorts ++ [p.ServicePort],
          lib.newPort "tcp" (toString port) ≠ .ok k) →
        GoMap.get args.hostConfig.PortBindings k = some [{ HostPort := pf.HostPort }]) := by
  constructor
  · intro a ha
    rcases resourceContainerCreate_calls_args lib cli p src img job deployConfig result state
      netState w a ha with h1 | ⟨p3, h3⟩
    · exact Or.inl h1
    · rw [h] at h3
      simp only [Except.ok.injEq, Prod.mk.injEq] at h3
      exact Or.inr h3.2.symm
  · obtain ⟨pfs, e1, b1, hpfs, hpub, hsvc, _⟩ :=
      buildCreateArgs_ports lib p p2 src img job deployConfig result netState args h
    refine ⟨pfs, hpfs, ?_, ?_⟩
    · intro port hmem k hk
      exact (servicePortLoop_port lib _ _ _ _ _ k port hsvc hmem hk).2
    · intro pre pf post k hsplit hk hpost hother
      subst hsplit
      rw [(servicePortLoop_other lib _ _ _ _ _ k hsvc hother).2]
      exact (publishLoop_last lib pre post pf _ _ _ _ k hpub hk hpost).2

/-- Witness of C15: with "3000:8000,8080:80,8080:81,9000:9001" published, the
service port 3000 and the extra port 9000, the ports 3000 and 9000 are bound
to an empty host port and the port 8080 to the host port 81. -/
theorem buildCreateArgs_port_precedence_witness :
    ∃ p2 args, buildCreateArgs sampleLib publishedConfig sampleSource sampleImage sampleJob
        sampleDeployConfig sampleResult { Name := "waypoint" } = .ok (p2, args) ∧
      GoMap.get args.hostConfig.PortBindings "3000/tcp" = some [{ HostPort := "" }] ∧
      GoMap.get args.hostConfig.PortBindings "9000/tcp" = some [{ HostPort := "" }] ∧
      GoMap.get args.hostConfig.PortBindings "8080/tcp" = some [{ HostPort := "81" }] := by
  refine ⟨_, _, rfl, ?_⟩
  obtain ⟨_, pfs, hpfs, hsvc, hpub⟩ := buildCreateArgs_port_precedence sampleLib
    (scriptedClient [] (.ok runningInfo) none) publishedConfig _ sampleSource sampleImage
    sampleJob sampleDeployConfig sampleResult {} { Name := "waypoint" } emptyWorld _ rfl
  have hl : (Except.ok pfs : Except Err (List portField)) = Except.ok
      [⟨"3000", "8000", "tcp"⟩, ⟨"8080", "80", "tcp"⟩, ⟨"8080", "81", "tcp"⟩,
        ⟨"9000", "9001", "tcp"⟩] := hpfs.symm.trans rfl
  simp only [Except.ok.injEq] at hl
  refine ⟨hsvc 3000 (by decide) _ rfl, hsvc 9000 (by decide) _ rfl, ?_⟩
  exact hpub [⟨"3000", "8000", "tcp"⟩, ⟨"8080", "80", "tcp"⟩] ⟨"8080", "81", "tcp"⟩
    [⟨"9000", "9001", "tcp"⟩] "8080/tcp" hl rfl
    (by intro q hq; simp only [List.mem_singleton] at hq; subst hq; simp [sampleLib])
    (by
      intro port hport
      have : port = 9000 ∨ port = 3000 := by simpa [publishedConfig] using hport
      rcases this with rfl | rfl <;> simp [sampleLib]
      all_goals decide)

/-! ## Deploy and the service port -/

theorem getDockerClient_calls {σ : Type} (lib : Lib) (cli : Client σ) (p : PlatformConfig)
    (w : World σ) (a : ContainerCreateArgs)
    (h : Call.ContainerCreate a ∈ (getDockerClient lib cli p w).2.calls) :
    Call.ContainerCreate a ∈ w.calls := by
  unfold getDockerClient at h
  split at h
  · exact h
  · simp only [World.call] at h
    split at h
    · exact h
    · simpa using h

theorem resourceNetworkCreate_calls {σ : Type} (cli : Client σ) (state : Resource_Network)
    (w : World σ) (a : ContainerCreateArgs)
    (h : Call.ContainerCreate a ∈ (resourceNetworkCreate cli state w).2.2.calls) :
    Call.ContainerCreate a ∈ w.calls := by
  unfold resourceNetworkCreate at h
  simp only [World.call, World.emit] at h
  split at h
  · simpa using h
  · split at h
    · split at h <;> simpa using h
    · split at h <;> simpa using h

theorem resourceContainerCreate_config {σ : Type} (lib : Lib) (cli : Client σ)
    (p : PlatformConfig) (src : Source) (img : Image) (job : JobInfo)
    (deployConfig : DeploymentConfig) (result : Deployment) (state : Resource_Container)
    (netState : Resource_Network) (w : World σ) :
    (resourceContainerCreate lib cli p src img job deployConfig result state netState
      w).2.1.ServicePort = p.ServicePort := by
  unfold resourceContainerCreate
  rcases hpull : pullImage lib cli img p.ForcePull w with ⟨e, w1⟩
  cases e with
  | some err => rfl
  | none =>
    cases hb : buildCreateArgs lib p src img job deployConfig result netState with
    | error err => rfl
    | ok pa =>
      obtain ⟨p2, args⟩ := pa
      have hc := buildCreateArgs_config lib p p2 src img job deployConfig result netState args hb
      simp only [World.call]
      split <;> exact hc

theorem CreateAll_facts {σ : Type} (lib : Lib) (cli : Client σ) (p : PlatformConfig)
    (src : Source) (job : JobInfo) (img : Image) (deployConfig : DeploymentConfig)
    (result : Deployment) (rm : Manager) (w : World σ) :
    (rm.CreateAll lib cli p src job img deployConfig result w).2.1.ServicePort = p.ServicePort ∧
    (∀ a, Call.ContainerCreate a ∈
        (rm.CreateAll lib cli p src job img deployConfig result w).2.2.2.calls →
      Call.ContainerCreate a ∈ w.calls ∨
        ∃ p2 ns, buildCreateArgs lib p src img job deployConfig result ns = .ok (p2, a)) ∧
    ((rm.CreateAll lib cli p src job img deployConfig result w).1 = none →
      ∃ p2 ns a, buildCreateArgs lib p src img job deployConfig result ns = .ok (p2, a) ∧
        Call.ContainerCreate a ∈
          (rm.CreateAll lib cli p src job img deployConfig result w).2.2.2.calls) := by
  unfold Manager.CreateAll
  have hg := getDockerClient_calls lib cli p w
  rcases hgc : getDockerClient lib cli p w with ⟨e, w1⟩
  rw [hgc] at hg
  cases e with
  | some err => exact ⟨rfl, fun a ha => Or.inl (hg a ha), fun h => by simp at h⟩
  | none =>
    simp only
    have hn := resourceNetworkCreate_calls cli rm.network w1
    rcases hnc : resourceNetworkCreate cli rm.network w1 with ⟨e2, network, w2⟩
    rw [hnc] at hn
    cases e2 with
    | some err => exact ⟨rfl, fun a ha => Or.inl (hg a (hn a ha)), fun h => by simp at h⟩
    | none =>
      simp only
      refine ⟨resourceContainerCreate_config lib cli p src img job deployConfig result
        rm.container network w2, ?_, ?_⟩
      · intro a ha
        rcases resourceContainerCreate_calls_args lib cli p src img job deployConfig result
          rm.container network w2 a ha with h1 | ⟨p2, h2⟩
        · exact Or.inl (hg a (hn a h1))
        · exact Or.inr ⟨p2, network, h2⟩
      · intro h
        obtain ⟨p2, a, hb, hc⟩ := resourceContainerCreate_success lib cli p src img job
          deployConfig result rm.container network w2 h
        exact ⟨p2, network, a, hb, hc⟩

theorem servicePortLoop_last_ok (lib : Lib) (ports : List Nat) (last : Nat)
    (e e2 : List (String × Unit)) (b b2 : List (String × List PortBinding))
    (h : servicePortLoop lib (ports ++ [last]) e b = .ok (e2, b2)) :
    ∃ k, lib.newPort "tcp" (toString last) = .ok k := by
  induction ports generalizing e b with
  | nil =>
    simp only [List.nil_append] at h
    unfold servicePortLoop at h
    cases hp : lib.newPort "tcp" (toString last) with
    | error err => rw [hp] at h; cases h
    | ok k => exact ⟨k, rfl⟩
  | cons q ports ih =>
    simp only [List.cons_append] at h
    unfold servicePortLoop at h
    cases hq : lib.newPort "tcp" (toString q) with
    | error err => rw [hq] at h; cases h
    | ok k => rw [hq] at h; exact ih _ _ h

theorem buildCreateArgs_service_port (lib : Lib) (p p2 : PlatformConfig) (src : Source)
    (img : Image) (job : JobInfo) (deployConfig : DeploymentConfig) (result : Deployment)
    (netState : Resource_Network) (args : ContainerCreateArgs)
    (hport : ∀ (n : Nat) (k : String), lib.newPort "tcp" (toString n) = .ok k → k = toString n ++ "/tcp")
    (h : buildCreateArgs lib p src img job deployConfig result netState = .ok (p2, args)) :
    args.config.Env.head? = some ("PORT=" ++ toString p.ServicePort) ∧
    GoMap.get args.config.ExposedPorts (toString p.ServicePort ++ "/tcp") = some () := by
  obtain ⟨pfs, e1, b1, _, _, hsvc, henv⟩ :=
    buildCreateArgs_ports lib p p2 src img job deployConfig result netState args h
  refine ⟨henv, ?_⟩
  have hne := servicePortLoop_last_ok lib _ _ _ _ _ _ hsvc
  obtain ⟨k, hk⟩ := hne
  have hk2 := hport _ _ hk
  subst hk2
  exact (servicePortLoop_port lib _ _ _ _ _ _ p.ServicePort hsvc (by simp) hk).1

/-- C14: the primary service port defaults to 3000.  The service port `Deploy`
leaves in the configuration is 3000 when the configured port is 0 and the
configured port otherwise; every `ContainerCreate` call the deploy issues has
"PORT=<that port>" as the first entry of its environment and "<that port>/tcp"
among its exposed ports; and a deploy that returns a deployment has issued
such a call.  `nat.NewPort` is taken to name the tcp port of a decimal number
`n` as "n/tcp" when it accepts it. -/
theorem Deploy_service_port {σ : Type} (lib : Lib) (cli : Client σ) (p : PlatformConfig)
    (src : Source) (job : JobInfo) (img : Image) (deployConfig : DeploymentConfig)
    (w : World σ)
    (hport : ∀ (n : Nat) (k : String), lib.newPort "tcp" (toString n) = .ok k →
      k = toString n ++ "/tcp") :
    (Deploy lib cli p src job img deployConfig w).2.1.ServicePort =
      (if p.ServicePort = 0 then 3000 else p.ServicePort) ∧
    (∀ a, Call.ContainerCreate a ∈ (Deploy lib cli p src job img deployConfig w).2.2.2.calls →
      Call.ContainerCreate a ∈ w.calls ∨
        (a.config.Env.head? =
            some ("PORT=" ++ toString (if p.ServicePort = 0 then 3000 else p.ServicePort)) ∧
          GoMap.get a.config.ExposedPorts
            (toString (if p.ServicePort = 0 then 3000 else p.ServicePort) ++ "/tcp")
              = some ())) ∧
    (∀ d, (Deploy lib cli p src job img deployConfig w).1 = .ok d →
      ∃ a, Call.ContainerCreate a ∈ (Deploy lib cli p src job img deployConfig w).2.2.2.calls ∧
        a.config.Env.head? =
          some ("PORT=" ++ toString (if p.ServicePort = 0 then 3000 else p.ServicePort)) ∧
        GoMap.get a.config.ExposedPorts
          (toString (if p.ServicePort = 0 then 3000 else p.ServicePort) ++ "/tcp")
            = some ()) := by
  unfold Deploy
  generalize hp1 : (if p.ServicePort = 0 then { p with ServicePort := 3000 } else p) = p1
  have hsp : p1.ServicePort = (if p.ServicePort = 0 then 3000 else p.ServicePort) := by
    rw [← hp1]
    split_ifs <;> rfl
  rw [← hsp]
  simp only
  cases hid : lib.componentId with
  | error err =>
    refine ⟨rfl, fun a ha => Or.inl (by simpa [World.emit] using ha), fun d hd => ?_⟩
    simp at hd
  | ok id =>
    simp only
    obtain ⟨hcfg, hcalls, hsucc⟩ := CreateAll_facts lib cli p1 src job img deployConfig
      { Id := id, Name := src.App } {} (w.emit .StepGroup)
    have hprops : ∀ p2 ns a, buildCreateArgs lib p1 src img job deployConfig
        { Id := id, Name := src.App } ns = .ok (p2, a) →
        a.config.Env.head? = some ("PORT=" ++ toString p1.ServicePort) ∧
        GoMap.get a.config.ExposedPorts (toString p1.ServicePort ++ "/tcp") = some () :=
      fun p2 ns a hb => buildCreateArgs_service_port lib p1 p2 src img job deployConfig _ ns a
        hport hb
    rcases hca : Manager.CreateAll lib cli p1 src job img deployConfig
      { Id := id, Name := src.App } {} (w.emit .StepGroup) with ⟨e, p3, rm, w3⟩
    rw [hca] at hcfg hcalls hsucc
    simp only at hcfg hcalls hsucc
    have hcalls2 : ∀ a, Call.ContainerCreate a ∈ w3.calls → Call.ContainerCreate a ∈ w.calls ∨
        (a.config.Env.head? = some ("PORT=" ++ toString p1.ServicePort) ∧
          GoMap.get a.config.ExposedPorts (toString p1.ServicePort ++ "/tcp") = some ()) := by
      intro a ha
      rcases hcalls a ha with h1 | ⟨p2, ns, hb⟩
      · exact Or.inl (by simpa [World.emit] using h1)
      · exact Or.inr (hprops p2 ns a hb)
    cases e with
    | some err =>
      refine ⟨hcfg, fun a ha => hcalls2 a (by simpa [World.emit] using ha), fun d hd => ?_⟩
      simp at hd
    | none =>
      refine ⟨hcfg, fun a ha => hcalls2 a (by simpa [World.emit] using ha), fun d _ => ?_⟩
      obtain ⟨p2, ns, a, hb, hc⟩ := hsucc rfl
      exact ⟨a, by simpa [World.emit] using hc, hprops p2 ns a hb⟩

/-- Witness of C14: a deploy with the service port unset uses 3000: the
container it creates gets "PORT=3000" first in its environment and exposes
"3000/tcp". -/
theorem Deploy_service_port_witness :
    unsetPortConfig.ServicePort = 0 ∧
    (Deploy sampleLib (scriptedClient [] (.ok runningInfo) none) unsetPortConfig sampleSource
      sampleJob sampleImage sampleDeployConfig emptyWorld).2.1.ServicePort = 3000 ∧
    ∃ a, Call.ContainerCreate a ∈ (Deploy sampleLib (scriptedClient [] (.ok runningInfo) none)
        unsetPortConfig sampleSource sampleJob sampleImage sampleDeployConfig
        emptyWorld).2.2.2.calls ∧
      a.config.Env.head? = some "PORT=3000" ∧
      GoMap.get a.config.ExposedPorts "3000/tcp" = some () :=
  have h := Deploy_service_port sampleLib (scriptedClient [] (.ok runningInfo) none)
    unsetPortConfig sampleSource sampleJob sampleImage sampleDeployConfig emptyWorld
    (fun n k hk => by
      simp only [sampleLib, Except.ok.injEq] at hk
      rw [← hk, String.append_assoc]
      rfl)
  ⟨rfl, h.1, h.2.2 _ rfl⟩

end DockerDesk
